import Mathlib

/-!
Verification of the mp3_combiner audio processing engine (`js/audio-processor.js`,
class `AudioProcessor`).  The engine merges decoded audio tracks with optional
silence gaps, serializes PCM to RIFF/WAVE bytes, optionally transcodes to MP3
through the external lamejs capability, and batch-converts files with per-item
failure isolation.  Samples are modelled as rationals (JS numbers, exact
arithmetic), channel buffers as lists, byte streams as lists of naturals.
-/

namespace Mp3Combiner

/-- Decoded PCM audio: the shape of a Web Audio `AudioBuffer` as the processor
uses it — per-channel sample lists, a sample rate, and the frame count (the
`length` property of an `AudioBuffer`). -/
structure AudioBuffer where
  sampleRate : ℕ
  channels : List (List ℚ)
  length : ℕ
deriving DecidableEq

/-- The `numberOfChannels` property of an `AudioBuffer`. -/
def AudioBuffer.numberOfChannels (b : AudioBuffer) : ℕ := b.channels.length

/-- The `getChannelData(c)` accessor of an `AudioBuffer`. -/
def AudioBuffer.getChannelData (b : AudioBuffer) (c : ℕ) : List ℚ := b.channels.getD c []

/-- The `duration` property of an `AudioBuffer`: frame count / sample rate. -/
def AudioBuffer.duration (b : AudioBuffer) : ℚ := (b.length : ℚ) / (b.sampleRate : ℚ)

/-- Well-formedness guaranteed by `AudioContext.createBuffer` and by decoding:
every channel array holds exactly `length` samples. -/
def AudioBuffer.WF (b : AudioBuffer) : Prop := ∀ ch ∈ b.channels, ch.length = b.length

instance (b : AudioBuffer) : Decidable b.WF :=
  inferInstanceAs (Decidable (∀ ch ∈ b.channels, ch.length = b.length))

/-- Effect of writing `src` into a `Float32Array` `dst` starting at index `off`
(`outputData.set(inputData, offset)`, and the indexed stores of the resampling
loop): positions outside `dst` are ignored, as typed-array stores are. -/
def overlay (dst src : List ℚ) (off : ℕ) : List ℚ :=
  (List.range dst.length).map fun i =>
    if off ≤ i ∧ i - off < src.length then src.getD (i - off) 0 else dst.getD i 0

/-- Inline linear-interpolation resampling used by `combineBuffers` when a
track's rate differs from the target rate (audio-processor.js lines 148-158).
`bufLength` is `buffer.length`, `inputData` the source channel array. -/
def resampleChannel (bufLength : ℕ) (inputData : List ℚ) (srcRate targetRate : ℕ) : List ℚ :=
  let ratio : ℚ := (srcRate : ℚ) / (targetRate : ℚ)
  let newLength : ℕ := Int.toNat ⌊(bufLength : ℚ) / ratio⌋
  (List.range newLength).map fun i =>
    let srcIndex : ℚ := (i : ℚ) * ratio
    let srcIndexFloor : ℤ := ⌊srcIndex⌋
    let srcIndexCeil : ℤ := min (srcIndexFloor + 1) ((inputData.length : ℤ) - 1)
    let t : ℚ := srcIndex - (srcIndexFloor : ℚ)
    inputData.getD srcIndexFloor.toNat 0 * (1 - t) + inputData.getD srcIndexCeil.toNat 0 * t

/-- Gap frames appended after a track: `Math.floor(gapDuration * targetSampleRate)`
frames whenever this is not the last track and the gap is positive
(audio-processor.js lines 125-127 and 167-169 use the same guard). -/
def interGap (gapDuration : ℚ) (targetSampleRate : ℕ) (rest : List AudioBuffer) : ℕ :=
  if rest.isEmpty then 0
  else if 0 < gapDuration then Int.toNat ⌊gapDuration * (targetSampleRate : ℚ)⌋ else 0

/-- Total combined frame count (audio-processor.js lines 121-128): the sum of
the `length` of every buffer, plus gap frames after every non-final buffer. -/
def totalLengthLoop (gapDuration : ℚ) (targetSampleRate : ℕ) : List AudioBuffer → ℕ
  | [] => 0
  | buffer :: rest =>
      buffer.length + interGap gapDuration targetSampleRate rest +
        totalLengthLoop gapDuration targetSampleRate rest

/-- Source channel selection (audio-processor.js line 145): a track with fewer
channels than the output contributes its first channel to the missing ones. -/
def sourceChannelIndex (buffer : AudioBuffer) (channel : ℕ) : ℕ :=
  if channel < buffer.numberOfChannels then channel else 0

/-- The sample run written for one track into one output channel: the source
channel data verbatim when the rates agree, its linear-interpolation resampling
otherwise (audio-processor.js lines 144-161). -/
def trackSegment (targetSampleRate : ℕ) (buffer : AudioBuffer) (channel : ℕ) : List ℚ :=
  let inputData := buffer.getChannelData (sourceChannelIndex buffer channel)
  if buffer.sampleRate ≠ targetSampleRate then
    resampleChannel buffer.length inputData buffer.sampleRate targetSampleRate
  else inputData

/-- The per-track channel loop of `combineBuffers` (lines 142-162): each output
channel `c` in `[0, targetChannels)` receives that track's segment at `off`. -/
def writeBuffer (targetSampleRate targetChannels : ℕ) (out : List (List ℚ)) (off : ℕ)
    (buffer : AudioBuffer) : List (List ℚ) :=
  (List.range targetChannels).foldl
    (fun acc channel =>
      acc.set channel (overlay (acc.getD channel []) (trackSegment targetSampleRate buffer channel) off))
    out

/-- The main loop of `combineBuffers` (lines 138-172): write each track at the
running offset, advance by the track length plus the inter-track gap, and report
progress `50 + ((bufferIndex+1)/buffers.length)*40` after each track. -/
def combineLoop (targetSampleRate targetChannels n : ℕ) (gapDuration : ℚ) :
    List AudioBuffer → List (List ℚ) → ℕ → ℕ → List (List ℚ) × List ℚ
  | [], out, _, _ => (out, [])
  | buffer :: rest, out, off, k =>
      let out2 := writeBuffer targetSampleRate targetChannels out off buffer
      let off2 := off + buffer.length + interGap gapDuration targetSampleRate rest
      let r := combineLoop targetSampleRate targetChannels n gapDuration rest out2 off2 (k + 1)
      (r.1, (50 + (((k + 1 : ℕ) : ℚ) / (n : ℚ)) * 40) :: r.2)

/-- `combineBuffers(buffers, gapDuration, onProgress)` (audio-processor.js lines
110-175).  Returns the combined buffer together with the list of progress values
passed to `onProgress`; throws when the input list is empty.  The target rate is
the first buffer's rate, the target channel count the maximum input channel
count, and the output starts as zero-initialized (silent) channel arrays. -/
def combineBuffers (buffers : List AudioBuffer) (gapDuration : ℚ) :
    Except String (AudioBuffer × List ℚ) :=
  match buffers with
  | [] => .error "병합할 오디오가 없습니다."
  | b0 :: _ =>
      let targetSampleRate := b0.sampleRate
      let targetChannels := (buffers.map AudioBuffer.numberOfChannels).foldl max 0
      let totalLength := totalLengthLoop gapDuration targetSampleRate buffers
      let initChannels := List.replicate targetChannels (List.replicate totalLength (0 : ℚ))
      let r := combineLoop targetSampleRate targetChannels buffers.length gapDuration buffers
        initChannels 0 0
      .ok (⟨targetSampleRate, r.1, totalLength⟩, r.2)

/-- Frame offset at which track `j` is written by `combineLoop` when the loop
starts at offset 0: the lengths of the earlier tracks plus their trailing gaps. -/
def startOffset (gapDuration : ℚ) (targetSampleRate : ℕ) : List AudioBuffer → ℕ → ℕ
  | _, 0 => 0
  | [], _ + 1 => 0
  | buffer :: rest, j + 1 =>
      buffer.length + interGap gapDuration targetSampleRate rest +
        startOffset gapDuration targetSampleRate rest j

/-- Clamping of a sample before quantization (audio-processor.js line 230):
`Math.max(-1, Math.min(1, sample))`. -/
def clampSample (s : ℚ) : ℚ := max (-1) (min 1 s)

/-- Asymmetric scaling of a clamped sample (audio-processor.js line 232):
`sample < 0 ? sample * 0x8000 : sample * 0x7FFF`. -/
def scaleSample (s : ℚ) : ℚ := if s < 0 then s * 32768 else s * 32767

/-- ECMAScript ToIntegerOrInfinity as applied by `DataView.setInt16`: truncation
toward zero. -/
def jsTrunc (q : ℚ) : ℤ := if q < 0 then -⌊-q⌋ else ⌊q⌋

/-- ECMAScript ToInt16, the number conversion performed by `DataView.setInt16`:
truncate, reduce modulo 2^16, reinterpret as a signed 16-bit value. -/
def toInt16 (q : ℚ) : ℤ :=
  let int16bit := jsTrunc q % 65536
  if 32768 ≤ int16bit then int16bit - 65536 else int16bit

/-- Per-sample quantization of the WAV encoder (audio-processor.js lines
228-233): clamp to [-1,1], scale asymmetrically, store via `setInt16`. -/
def quantizeSample (s : ℚ) : ℤ := toInt16 (scaleSample (clampSample s))

/-- Modelled from the spec: the per-sample mapping as §4.4 states it —
"`intSample = sample < 0 ? round(sample*32768) : round(sample*32767)`" after
clamping.  Kept separate from `quantizeSample` (translated from the code) so the
two can be compared. -/
def quantizeSampleSpec (s : ℚ) : ℤ :=
  let c := clampSample s
  if c < 0 then round (c * 32768) else round (c * 32767)

/-- Little-endian bytes of a signed 16-bit store (`DataView.setInt16`). -/
def i16LE (v : ℤ) : List ℕ :=
  [(v % 65536).toNat % 256, (v % 65536).toNat / 256]

/-- Little-endian bytes of `DataView.setUint16` (which wraps modulo 2^16). -/
def u16LE (v : ℕ) : List ℕ := [v % 256, v / 256 % 256]

/-- Little-endian bytes of `DataView.setUint32` (which wraps modulo 2^32). -/
def u32LE (v : ℕ) : List ℕ :=
  [v % 256, v / 256 % 256, v / 65536 % 256, v / 16777216 % 256]

/-- `writeString`: one byte per character (`charCodeAt`, ASCII here). -/
def strBytes (s : String) : List ℕ := s.toList.map Char.toNat

/-- The 44-byte canonical RIFF/WAVE header written by `audioBufferToWav`
(audio-processor.js lines 196-222). -/
def wavHeaderBytes (numOfChannels sampleRate frameCount : ℕ) : List ℕ :=
  let blockAlign := numOfChannels * 2
  let dataLen := frameCount * blockAlign
  strBytes "RIFF" ++ u32LE (36 + dataLen) ++ strBytes "WAVE" ++ strBytes "fmt " ++
    u32LE 16 ++ u16LE 1 ++ u16LE numOfChannels ++ u32LE sampleRate ++
    u32LE (sampleRate * blockAlign) ++ u16LE blockAlign ++ u16LE 16 ++
    strBytes "data" ++ u32LE dataLen

/-- The two data bytes for one sample (clamp, scale, `setInt16` little-endian). -/
def sampleBytes (s : ℚ) : List ℕ := i16LE (quantizeSample s)

/-- The interleaved PCM16 payload of `audioBufferToWav` (lines 224-236):
frame-major, channel-minor. -/
def wavDataBytes (b : AudioBuffer) : List ℕ :=
  ((List.range b.length).map fun i =>
    ((List.range b.numberOfChannels).map fun channel =>
      sampleBytes ((b.getChannelData channel).getD i 0)).flatten).flatten

/-- A JS `Blob`: its byte content and MIME type. -/
structure Blob where
  bytes : List ℕ
  type : String
deriving DecidableEq

/-- `audioBufferToWav(audioBuffer)` (audio-processor.js lines 182-239). -/
def audioBufferToWav (b : AudioBuffer) : Blob :=
  ⟨wavHeaderBytes b.numberOfChannels b.sampleRate b.length ++ wavDataBytes b, "audio/wav"⟩

/-- `audioBufferToWavWithSampleRate(audioBuffer, sampleRate)` (lines 515-556):
identical, except the header advertises the passed sample rate. -/
def audioBufferToWavWithSampleRate (b : AudioBuffer) (sampleRate : ℕ) : Blob :=
  ⟨wavHeaderBytes b.numberOfChannels sampleRate b.length ++ wavDataBytes b, "audio/wav"⟩

/-- Little-endian 16-bit read (`DataView.getUint16(off, true)`). -/
def parseU16 (bytes : List ℕ) (off : ℕ) : ℕ :=
  bytes.getD off 0 + 256 * bytes.getD (off + 1) 0

/-- Little-endian 32-bit read (`DataView.getUint32(off, true)`). -/
def parseU32 (bytes : List ℕ) (off : ℕ) : ℕ :=
  bytes.getD off 0 + 256 * bytes.getD (off + 1) 0 + 65536 * bytes.getD (off + 2) 0 +
    16777216 * bytes.getD (off + 3) 0

/-- Little-endian signed 16-bit read (`DataView.getInt16(off, true)`). -/
def readI16 (bytes : List ℕ) (off : ℕ) : ℤ :=
  let u := parseU16 bytes off
  if 32768 ≤ u then (u : ℤ) - 65536 else (u : ℤ)

/-- The external lamejs MP3 encoder capability (spec §4.5, §6): constructed with
(channels, sampleRate, bitrate); a stateful session whose `encodeBuffer` and
`flush` calls return byte chunks and may throw.  Its internals are supplied by
the environment and are out of scope; only the adapter around it is modelled. -/
structure LamejsLib (σ : Type) where
  init : ℕ → ℕ → ℕ → σ
  encodeBuffer : σ → List ℤ → Option (List ℤ) → Except String (σ × List ℕ)
  flush : σ → Except String (List ℕ)

/-- Fixed encoder block size (audio-processor.js line 293). -/
def sampleBlockSize : ℕ := 1152

/-- The block-feeding loop of `wavToMp3` (lines 294-308): feed 1152-sample
chunks to the encoder, keeping every non-empty returned chunk.  The `fuel`
argument only bounds the iteration count so the recursion is structural; every
call site passes `fuel` at least the sample count, which the loop never
exhausts. -/
def mp3EncodeLoop {σ : Type} (lib : LamejsLib σ) :
    ℕ → σ → List ℤ → Option (List ℤ) → List (List ℕ) → Except String (σ × List (List ℕ))
  | 0, st, _, _, acc => .ok (st, acc)
  | fuel + 1, st, leftChannel, rightChannel, acc =>
      if leftChannel.isEmpty then .ok (st, acc)
      else
        match lib.encodeBuffer st (leftChannel.take sampleBlockSize)
            (rightChannel.map fun r => r.take sampleBlockSize) with
        | .error e => .error e
        | .ok (st2, mp3buf) =>
            mp3EncodeLoop lib fuel st2 (leftChannel.drop sampleBlockSize)
              (rightChannel.map fun r => r.drop sampleBlockSize)
              (if 0 < mp3buf.length then acc ++ [mp3buf] else acc)

/-- `wavToMp3(wavBlob, bitrate)` (audio-processor.js lines 261-316).  When the
lamejs capability is absent the WAV blob is returned unchanged together with the
`console.warn` message; otherwise the WAV header is re-parsed, the PCM16
channels are reconstructed, fed to the encoder session in 1152-sample blocks,
and the flushed tail appended.  Any throw from the session propagates. -/
def wavToMp3 {σ : Type} (lamejs : Option (LamejsLib σ)) (wavBlob : Blob) (bitrate : ℕ) :
    Except String (Blob × Option String) :=
  match lamejs with
  | none => .ok (wavBlob, some "lamejs not loaded, returning WAV instead")
  | some lib =>
      let dataView := wavBlob.bytes
      let channels := parseU16 dataView 22
      let sampleRate := parseU32 dataView 24
      let dataOffset := 44
      let samples := (dataView.length - dataOffset) / 2 / channels
      let leftChannel := (List.range samples).map fun i =>
        readI16 dataView (dataOffset + i * channels * 2)
      let rightChannel :=
        if channels = 2 then
          some ((List.range samples).map fun i =>
            readI16 dataView (dataOffset + i * channels * 2 + 2))
        else none
      let st0 := lib.init channels sampleRate bitrate
      match mp3EncodeLoop lib samples st0 leftChannel rightChannel [] with
      | .error e => .error e
      | .ok (st1, mp3Data) =>
          match lib.flush st1 with
          | .error e => .error e
          | .ok mp3End =>
              let allData := if 0 < mp3End.length then mp3Data ++ [mp3End] else mp3Data
              .ok (⟨allData.flatten, "audio/mp3"⟩, none)

/-- The mutable fields of an `AudioProcessor` instance that the export path and
URL accessor read (`this.combinedBuffer`, `this.combinedBlob`,
`this.audioBuffers`). -/
structure ProcState where
  audioBuffers : List AudioBuffer
  combinedBuffer : Option AudioBuffer
  combinedBlob : Option Blob
deriving DecidableEq

/-- `exportAudio(format, bitrate, onProgress)` (audio-processor.js lines
325-350): throws when no merged buffer is held; otherwise encodes to WAV,
converts to MP3 unless the WAV format was requested, and falls back to the WAV
blob when the MP3 conversion throws.  Returns the updated state, the exported
blob, and the progress values reported. -/
def exportAudio {σ : Type} (lamejs : Option (LamejsLib σ)) (st : ProcState) (format : String)
    (bitrate : ℕ) : Except String (ProcState × Blob × List ℚ) :=
  match st.combinedBuffer with
  | none => .error "병합된 오디오가 없습니다."
  | some buffer =>
      let wavBlob := audioBufferToWav buffer
      if format = "wav" then .ok ({ st with combinedBlob := some wavBlob }, wavBlob, [90, 100])
      else
        match wavToMp3 lamejs wavBlob bitrate with
        | .ok (mp3Blob, _) => .ok ({ st with combinedBlob := some mp3Blob }, mp3Blob, [90, 100])
        | .error _ => .ok ({ st with combinedBlob := some wavBlob }, wavBlob, [90, 100])

/-- `getCombinedAudioUrl()` (audio-processor.js lines 356-361): throws when no
combined blob is held; otherwise produces an object URL for it.  URL creation
(`URL.createObjectURL`) is an external capability, passed as `mkUrl`. -/
def getCombinedAudioUrl (mkUrl : Blob → String) (st : ProcState) : Except String String :=
  match st.combinedBlob with
  | none => .error "병합된 오디오가 없습니다."
  | some blob => .ok (mkUrl blob)

instance {ε α : Type} [DecidableEq ε] [DecidableEq α] : DecidableEq (Except ε α) := fun x y =>
  match x, y with
  | .ok a, .ok b => decidable_of_iff (a = b) (by simp)
  | .error a, .error b => decidable_of_iff (a = b) (by simp)
  | .ok _, .error _ => .isFalse (by simp)
  | .error _, .ok _ => .isFalse (by simp)

/-- An input file together with the outcome of reading and decoding it.  Reading
(`FileReader`) and decoding (`decodeAudioData`) are external capabilities (spec
§4.1), so each file carries the result the environment would produce for it. -/
structure RawFile where
  name : String
  decodeResult : Except String AudioBuffer
deriving DecidableEq

/-- The loop of `loadAudioFiles(files, onProgress)` (audio-processor.js lines
76-89): decode each file in order, reporting `((i+1)/total)*50` after each; a
decode failure propagates, keeping the progress already reported. -/
def loadAudioFilesLoop (total : ℕ) :
    List RawFile → ℕ → Except String (List AudioBuffer) × List ℚ
  | [], _ => (.ok [], [])
  | file :: rest, i =>
      match file.decodeResult with
      | .error e => (.error e, [])
      | .ok buffer =>
          let r := loadAudioFilesLoop total rest (i + 1)
          (r.1.map fun bufs => buffer :: bufs, (((i + 1 : ℕ) : ℚ) / (total : ℚ) * 50) :: r.2)

/-- `loadAudioFiles(files, onProgress)`: the decoded buffers and the reported
progress values. -/
def loadAudioFiles (files : List RawFile) : Except String (List AudioBuffer) × List ℚ :=
  loadAudioFilesLoop files.length files 0

/-- Basename extraction in `convertFiles` (line 460): the effect of
`file.name.replace(/\.[^\/.]+$/, '')` — drop a final dot-extension whose
characters contain no slash and no further dot. -/
def stripExtension (name : String) : String :=
  let rev := name.toList.reverse
  let ext := rev.takeWhile fun ch => ch != '.' && ch != '/'
  let rest := rev.dropWhile fun ch => ch != '.' && ch != '/'
  match rest with
  | '.' :: base => if ext.isEmpty then name else String.mk base.reverse
  | _ => name

/-- Result of `convertFile`: the output blob and the processed duration. -/
structure ConvertOutput where
  blob : Blob
  duration : ℚ
deriving DecidableEq

/-- `convertFile(file, targetFormat, bitrate, sampleRate)` (audio-processor.js
lines 405-438): decode, resample only when the decoded rate differs from the
target (`resampleBuffer` renders through an `OfflineAudioContext`, an external
capability, passed here as a parameter), encode to WAV, then dispatch on the
target format — `ogg` and unknown formats fall back to the WAV blob. -/
def convertFile {σ : Type} (lamejs : Option (LamejsLib σ))
    (resampleBuffer : AudioBuffer → ℕ → AudioBuffer) (file : RawFile) (targetFormat : String)
    (bitrate sampleRate : ℕ) : Except String ConvertOutput :=
  match file.decodeResult with
  | .error e => .error e
  | .ok audioBuffer =>
      let processedBuffer :=
        if audioBuffer.sampleRate ≠ sampleRate then resampleBuffer audioBuffer sampleRate
        else audioBuffer
      let wavBlob := audioBufferToWavWithSampleRate processedBuffer sampleRate
      let outputBlobE : Except String Blob :=
        if targetFormat = "wav" then .ok wavBlob
        else if targetFormat = "mp3" then
          match wavToMp3 lamejs wavBlob bitrate with
          | .ok (blob, _) => .ok blob
          | .error e => .error e
        else .ok wavBlob
      match outputBlobE with
      | .error e => .error e
      | .ok outputBlob => .ok ⟨outputBlob, processedBuffer.duration⟩

/-- Batch result variant (audio-processor.js lines 463-475): a success record
with the original name, new filename, blob, duration and size, or a failure
record with the original name and the caught error message. -/
inductive ConversionResult where
  | success (originalName newFilename : String) (blob : Blob) (duration : ℚ) (size : ℕ) :
      ConversionResult
  | failure (originalName : String) (error : String) : ConversionResult
deriving DecidableEq

/-- The original file name carried by either variant. -/
def ConversionResult.originalName : ConversionResult → String
  | .success n _ _ _ _ => n
  | .failure n _ => n

/-- Whether a batch entry is a success record. -/
def ConversionResult.isSuccess : ConversionResult → Bool
  | .success _ _ _ _ _ => true
  | .failure _ _ => false

/-- The try/catch body of the batch loop (lines 456-476): convert one file,
recording either the success fields or the caught error. -/
def conversionEntry {σ : Type} (lamejs : Option (LamejsLib σ))
    (resampleBuffer : AudioBuffer → ℕ → AudioBuffer) (targetFormat : String)
    (bitrate sampleRate : ℕ) (file : RawFile) : ConversionResult :=
  match convertFile lamejs resampleBuffer file targetFormat bitrate sampleRate with
  | .ok r =>
      .success file.name (stripExtension file.name ++ "." ++ targetFormat) r.blob r.duration
        r.blob.bytes.length
  | .error e => .failure file.name e

/-- The loop of `convertFiles` (audio-processor.js lines 453-479): one entry per
file in order, with `((i+1)/total)*100` reported after each file regardless of
outcome. -/
def convertFilesLoop {σ : Type} (lamejs : Option (LamejsLib σ))
    (resampleBuffer : AudioBuffer → ℕ → AudioBuffer) (targetFormat : String)
    (bitrate sampleRate total : ℕ) : List RawFile → ℕ → List ConversionResult × List ℚ
  | [], _ => ([], [])
  | file :: rest, i =>
      let entry := conversionEntry lamejs resampleBuffer targetFormat bitrate sampleRate file
      let r := convertFilesLoop lamejs resampleBuffer targetFormat bitrate sampleRate total rest
        (i + 1)
      (entry :: r.1, (((i + 1 : ℕ) : ℚ) / (total : ℚ) * 100) :: r.2)

/-- `convertFiles(files, targetFormat, bitrate, sampleRate, onProgress)`
(audio-processor.js lines 449-482): the ordered result list and the reported
progress values. -/
def convertFiles {σ : Type} (lamejs : Option (LamejsLib σ))
    (resampleBuffer : AudioBuffer → ℕ → AudioBuffer) (files : List RawFile)
    (targetFormat : String) (bitrate sampleRate : ℕ) : List ConversionResult × List ℚ :=
  convertFilesLoop lamejs resampleBuffer targetFormat bitrate sampleRate files.length files 0

/-- Fixture: a one-second silent mono track at 44100 Hz (spec §8 scenario). -/
def track1s : AudioBuffer := ⟨44100, [List.replicate 44100 (0 : ℚ)], 44100⟩

/-- Fixture: a one-second mono track at 2 Hz with two zero samples. -/
def gapDemoBuffer : AudioBuffer := ⟨2, [[0, 0]], 2⟩

/-- Fixture: a tiny mono track at rate 2. -/
def demoBufferA : AudioBuffer := ⟨2, [[1, 2]], 2⟩

/-- Fixture: a tiny stereo track at rate 2. -/
def demoBufferB : AudioBuffer := ⟨2, [[1, 2], [3, 4]], 2⟩

/-- Fixture: a two-frame mono track at 8000 Hz with full-scale samples. -/
def wavDemoBuffer : AudioBuffer := ⟨8000, [[1, -1]], 2⟩

/-- Fixture: a one-frame mono track at 8000 Hz. -/
def tinyBuffer : AudioBuffer := ⟨8000, [[0]], 1⟩

/-- Fixture: a lamejs capability whose encoder session always throws. -/
def failingLamejs : LamejsLib Unit :=
  ⟨fun _ _ _ => (), fun _ _ _ => .error "encode failed", fun _ => .error "flush failed"⟩

/-- Fixture: a file the decode capability accepts. -/
def goodFile : RawFile := ⟨"song.mp3", .ok tinyBuffer⟩

/-- Fixture: a corrupt file the decode capability rejects. -/
def badFile : RawFile := ⟨"broken.mp3", .error "오디오 디코딩에 실패했습니다."⟩

/-- Fixture: a processor state holding nothing. -/
def emptyState : ProcState := ⟨[], none, none⟩

/-- Fixture: a processor state holding only a merged buffer. -/
def mergedState : ProcState := ⟨[], some tinyBuffer, none⟩

/-- Fixture: the channel data produced by merging the demo buffers with no gap
(the exact loop call made by combineBuffers on that input). -/
def mergeDemoChannels : List (List ℚ) :=
  (combineLoop demoBufferA.sampleRate
    (([demoBufferA, demoBufferB].map AudioBuffer.numberOfChannels).foldl max 0)
    ([demoBufferA, demoBufferB]).length 0 [demoBufferA, demoBufferB]
    (List.replicate (([demoBufferA, demoBufferB].map AudioBuffer.numberOfChannels).foldl max 0)
      (List.replicate (totalLengthLoop 0 demoBufferA.sampleRate [demoBufferA, demoBufferB])
        (0 : ℚ))) 0 0).1

/-- Fixture: the progress values reported while merging the demo buffers. -/
def mergeDemoProgress : List ℚ :=
  (combineLoop demoBufferA.sampleRate
    (([demoBufferA, demoBufferB].map AudioBuffer.numberOfChannels).foldl max 0)
    ([demoBufferA, demoBufferB]).length 0 [demoBufferA, demoBufferB]
    (List.replicate (([demoBufferA, demoBufferB].map AudioBuffer.numberOfChannels).foldl max 0)
      (List.replicate (totalLengthLoop 0 demoBufferA.sampleRate [demoBufferA, demoBufferB])
        (0 : ℚ))) 0 0).2

/-- Fixture: the combined track produced by merging the demo buffers. -/
def mergeDemoBuffer : AudioBuffer :=
  ⟨demoBufferA.sampleRate, mergeDemoChannels,
    totalLengthLoop 0 demoBufferA.sampleRate [demoBufferA, demoBufferB]⟩

end Mp3Combiner

namespace Mp3Combiner

theorem getD_set_self (l : List (List ℚ)) (i : ℕ) (v : List ℚ) (h : i < l.length) :
    (l.set i v).getD i [] = v := by
  rw [List.getD_eq_getElem _ _ (by simpa using h)]
  exact List.getElem_set_self (by simpa using h)

theorem getD_set_ne (l : List (List ℚ)) (i j : ℕ) (v : List ℚ) (h : i ≠ j) :
    (l.set i v).getD j [] = l.getD j [] := by
  rcases Nat.lt_or_ge j l.length with hj | hj
  · rw [List.getD_eq_getElem _ _ (by simpa using hj), List.getD_eq_getElem _ _ hj]
    exact List.getElem_set_ne h _
  · rw [List.getD_eq_default _ _ (by simpa using hj), List.getD_eq_default _ _ hj]

theorem length_overlay (dst src : List ℚ) (off : ℕ) :
    (overlay dst src off).length = dst.length := by
  simp [overlay]

theorem getD_overlay (dst src : List ℚ) (off i : ℕ) (h : i < dst.length) :
    (overlay dst src off).getD i 0 =
      if off ≤ i ∧ i - off < src.length then src.getD (i - off) 0 else dst.getD i 0 := by
  have h2 : i < (overlay dst src off).length := by rw [length_overlay]; exact h
  rw [List.getD_eq_getElem _ _ h2]
  simp [overlay]

theorem foldl_set_length (g : ℕ → List ℚ → List ℚ) (cs : List ℕ) (out : List (List ℚ)) :
    (cs.foldl (fun acc channel => acc.set channel (g channel (acc.getD channel []))) out).length
      = out.length := by
  induction cs generalizing out with
  | nil => rfl
  | cons c cs ih => rw [List.foldl_cons, ih, List.length_set]

theorem foldl_set_getD (g : ℕ → List ℚ → List ℚ) (tC : ℕ) (out : List (List ℚ)) (c : ℕ) :
    ((List.range tC).foldl
        (fun acc channel => acc.set channel (g channel (acc.getD channel []))) out).getD c []
      = if c < tC ∧ c < out.length then g c (out.getD c []) else out.getD c [] := by
  induction tC with
  | zero => simp
  | succ n ih =>
      rw [List.range_succ, List.foldl_append, List.foldl_cons, List.foldl_nil]
      rcases eq_or_ne c n with rfl | hne
      · rcases Nat.lt_or_ge c out.length with hc | hc
        · have hlen : c <
              ((List.range c).foldl
                (fun acc channel => acc.set channel (g channel (acc.getD channel []))) out).length := by
            rw [foldl_set_length]; exact hc
          rw [getD_set_self _ _ _ hlen, ih, if_neg (by omega), if_pos (by omega)]
        · have hlen :
              ((List.range c).foldl
                (fun acc channel => acc.set channel (g channel (acc.getD channel []))) out).length ≤ c := by
            rw [foldl_set_length]; exact hc
          rw [List.getD_eq_default _ _ (by simpa using hlen),
            if_neg (fun h2 => absurd h2.2 (by omega)), List.getD_eq_default _ _ hc]
      · rw [getD_set_ne _ _ _ _ (fun h => hne h.symm), ih]
        by_cases h1 : c < n ∧ c < out.length
        · rw [if_pos h1, if_pos ⟨by omega, h1.2⟩]
        · rw [if_neg h1, if_neg (fun h2 => h1 ⟨by omega, h2.2⟩)]


theorem writeBuffer_length (tR tC : ℕ) (out : List (List ℚ)) (off : ℕ) (b : AudioBuffer) :
    (writeBuffer tR tC out off b).length = out.length :=
  foldl_set_length (fun channel l => overlay l (trackSegment tR b channel) off) _ out

theorem writeBuffer_getD (tR tC : ℕ) (out : List (List ℚ)) (off : ℕ) (b : AudioBuffer) (c : ℕ) :
    (writeBuffer tR tC out off b).getD c []
      = if c < tC ∧ c < out.length then overlay (out.getD c []) (trackSegment tR b c) off
        else out.getD c [] :=
  foldl_set_getD (fun channel l => overlay l (trackSegment tR b channel) off) tC out c

theorem combineLoop_cons (tR tC n : ℕ) (gd : ℚ) (b : AudioBuffer) (rest : List AudioBuffer)
    (out : List (List ℚ)) (off k : ℕ) :
    combineLoop tR tC n gd (b :: rest) out off k
      = ((combineLoop tR tC n gd rest (writeBuffer tR tC out off b)
            (off + b.length + interGap gd tR rest) (k + 1)).1,
         (50 + (((k + 1 : ℕ) : ℚ) / (n : ℚ)) * 40) ::
           (combineLoop tR tC n gd rest (writeBuffer tR tC out off b)
            (off + b.length + interGap gd tR rest) (k + 1)).2) := rfl

theorem combineLoop_fst_length (tR tC n : ℕ) (gd : ℚ) :
    ∀ (bufs : List AudioBuffer) (out : List (List ℚ)) (off k : ℕ),
      (combineLoop tR tC n gd bufs out off k).1.length = out.length := by
  intro bufs
  induction bufs with
  | nil => intros; rfl
  | cons b rest ih =>
      intro out off k
      rw [combineLoop_cons]
      exact (ih _ _ _).trans (writeBuffer_length tR tC out off b)

theorem combineLoop_channel_length (tR tC n : ℕ) (gd : ℚ) :
    ∀ (bufs : List AudioBuffer) (out : List (List ℚ)) (off k c : ℕ),
      (((combineLoop tR tC n gd bufs out off k).1).getD c []).length
        = (out.getD c []).length := by
  intro bufs
  induction bufs with
  | nil => intros; rfl
  | cons b rest ih =>
      intro out off k c
      rw [combineLoop_cons]
      refine (ih _ _ _ c).trans ?_
      rw [writeBuffer_getD]
      split
      · exact length_overlay _ _ _
      · rfl

theorem combineLoop_stable (tR tC n : ℕ) (gd : ℚ) :
    ∀ (bufs : List AudioBuffer) (out : List (List ℚ)) (off k p c : ℕ), p < off →
      (((combineLoop tR tC n gd bufs out off k).1).getD c []).getD p 0
        = (out.getD c []).getD p 0 := by
  intro bufs
  induction bufs with
  | nil => intros; rfl
  | cons b rest ih =>
      intro out off k p c hp
      rw [combineLoop_cons]
      refine ((ih _ _ _ p c (by omega)).trans ?_)
      rw [writeBuffer_getD]
      split
      · rcases Nat.lt_or_ge p (out.getD c []).length with hlt | hge
        · rw [getD_overlay _ _ _ _ hlt, if_neg (by omega)]
        · rw [List.getD_eq_default _ _ (by rw [length_overlay]; exact hge),
            List.getD_eq_default _ _ hge]
      · rfl

theorem trackSegment_same_rate (tR : ℕ) (b : AudioBuffer) (c : ℕ) (h : b.sampleRate = tR) :
    trackSegment tR b c = b.getChannelData (sourceChannelIndex b c) := by
  simp [trackSegment, h]

theorem sourceChannelIndex_lt (b : AudioBuffer) (c : ℕ) (h : 0 < b.numberOfChannels) :
    sourceChannelIndex b c < b.numberOfChannels := by
  unfold sourceChannelIndex
  split
  · assumption
  · exact h

theorem getChannelData_length (b : AudioBuffer) (hWF : b.WF) (idx : ℕ)
    (h : idx < b.numberOfChannels) : (b.getChannelData idx).length = b.length := by
  rw [AudioBuffer.getChannelData, List.getD_eq_getElem _ _ h]
  exact hWF _ (List.getElem_mem h)

theorem combineLoop_region (tR tC n : ℕ) (gd : ℚ) :
    ∀ (bufs : List AudioBuffer) (out : List (List ℚ)) (off k T : ℕ),
      (∀ c, c < out.length → (out.getD c []).length = T) →
      off + totalLengthLoop gd tR bufs ≤ T →
      (∀ b ∈ bufs, b.sampleRate = tR ∧ b.WF ∧ 0 < b.numberOfChannels) →
      ∀ (j : ℕ) (hj : j < bufs.length) (c : ℕ), c < tC → c < out.length →
        ∀ i, i < (bufs.get ⟨j, hj⟩).length →
          (((combineLoop tR tC n gd bufs out off k).1).getD c []).getD
              (off + startOffset gd tR bufs j + i) 0
            = ((bufs.get ⟨j, hj⟩).getChannelData
                (sourceChannelIndex (bufs.get ⟨j, hj⟩) c)).getD i 0 := by
  intro bufs
  induction bufs with
  | nil =>
      intro out off k T hlen hT hbufs j hj
      exact absurd hj (by simp)
  | cons b rest ih =>
      intro out off k T hlen hT hbufs j hj c hcT hcO i hi
      obtain ⟨hbR, hbWF, hbnc⟩ := hbufs b (List.mem_cons_self _ _)
      have htot : totalLengthLoop gd tR (b :: rest)
          = b.length + interGap gd tR rest + totalLengthLoop gd tR rest := rfl
      cases j with
      | zero =>
          have hi0 : i < b.length := hi
          have hpos : off + startOffset gd tR (b :: rest) 0 + i = off + i := by
            simp [startOffset]
          rw [combineLoop_cons, hpos]
          have hstab := combineLoop_stable tR tC n gd rest (writeBuffer tR tC out off b)
            (off + b.length + interGap gd tR rest) (k + 1) (off + i) c (by omega)
          rw [hstab, writeBuffer_getD, if_pos ⟨hcT, hcO⟩]
          have hseg : trackSegment tR b c = b.getChannelData (sourceChannelIndex b c) :=
            trackSegment_same_rate tR b c hbR
          have hseglen : (trackSegment tR b c).length = b.length := by
            rw [hseg]
            exact getChannelData_length b hbWF _ (sourceChannelIndex_lt b c hbnc)
          have hdst : off + i < (out.getD c []).length := by
            rw [hlen c hcO]; omega
          rw [getD_overlay _ _ _ _ hdst, if_pos ⟨by omega, by omega⟩, hseg]
          congr 1
          omega
      | succ j2 =>
          have hpos : off + startOffset gd tR (b :: rest) (j2 + 1) + i
              = (off + b.length + interGap gd tR rest) + startOffset gd tR rest j2 + i := by
            have : startOffset gd tR (b :: rest) (j2 + 1)
                = b.length + interGap gd tR rest + startOffset gd tR rest j2 := rfl
            omega
          rw [combineLoop_cons, hpos]
          exact ih (writeBuffer tR tC out off b) (off + b.length + interGap gd tR rest) (k + 1) T
            (fun c2 hc2 => by
              have hc2o : c2 < out.length := by rwa [writeBuffer_length] at hc2
              rw [writeBuffer_getD]
              split
              · rw [length_overlay]; exact hlen c2 hc2o
              · exact hlen c2 hc2o)
            (by omega)
            (fun b2 hb2 => hbufs b2 (List.mem_cons_of_mem _ hb2))
            j2 (Nat.lt_of_succ_lt_succ hj) c hcT (by rwa [writeBuffer_length]) i hi

theorem totalLengthLoop_eq (gd : ℚ) (tR : ℕ) (bufs : List AudioBuffer) :
    totalLengthLoop gd tR bufs =
      (bufs.map AudioBuffer.length).sum +
        (bufs.length - 1) * (if 0 < gd then Int.toNat ⌊gd * (tR : ℚ)⌋ else 0) := by
  induction bufs with
  | nil => simp [totalLengthLoop]
  | cons b rest ih =>
      cases rest with
      | nil => simp [totalLengthLoop, interGap]
      | cons b2 rest2 =>
          have hg : interGap gd tR (b2 :: rest2)
              = (if 0 < gd then Int.toNat ⌊gd * (tR : ℚ)⌋ else 0) := by
            simp [interGap]
          rw [show totalLengthLoop gd tR (b :: b2 :: rest2)
              = b.length + interGap gd tR (b2 :: rest2) + totalLengthLoop gd tR (b2 :: rest2)
            from rfl, ih, hg]
          simp [List.length_cons]
          split <;> ring

theorem combineBuffers_cons (b0 : AudioBuffer) (rest : List AudioBuffer) (gd : ℚ) :
    combineBuffers (b0 :: rest) gd = .ok
      (⟨b0.sampleRate,
        (combineLoop b0.sampleRate (((b0 :: rest).map AudioBuffer.numberOfChannels).foldl max 0)
            (b0 :: rest).length gd (b0 :: rest)
            (List.replicate (((b0 :: rest).map AudioBuffer.numberOfChannels).foldl max 0)
              (List.replicate (totalLengthLoop gd b0.sampleRate (b0 :: rest)) (0 : ℚ))) 0 0).1,
        totalLengthLoop gd b0.sampleRate (b0 :: rest)⟩,
       (combineLoop b0.sampleRate (((b0 :: rest).map AudioBuffer.numberOfChannels).foldl max 0)
          (b0 :: rest).length gd (b0 :: rest)
          (List.replicate (((b0 :: rest).map AudioBuffer.numberOfChannels).foldl max 0)
            (List.replicate (totalLengthLoop gd b0.sampleRate (b0 :: rest)) (0 : ℚ))) 0 0).2) := rfl

theorem combineBuffers_ok (b0 : AudioBuffer) (rest : List AudioBuffer) (gd : ℚ)
    (combined : AudioBuffer) (prog : List ℚ)
    (h : combineBuffers (b0 :: rest) gd = .ok (combined, prog)) :
    combined.sampleRate = b0.sampleRate
    ∧ combined.length = totalLengthLoop gd b0.sampleRate (b0 :: rest)
    ∧ combined.numberOfChannels = ((b0 :: rest).map AudioBuffer.numberOfChannels).foldl max 0
    ∧ combined.channels
        = (combineLoop b0.sampleRate (((b0 :: rest).map AudioBuffer.numberOfChannels).foldl max 0)
            (b0 :: rest).length gd (b0 :: rest)
            (List.replicate (((b0 :: rest).map AudioBuffer.numberOfChannels).foldl max 0)
              (List.replicate (totalLengthLoop gd b0.sampleRate (b0 :: rest)) (0 : ℚ))) 0 0).1
    ∧ prog
        = (combineLoop b0.sampleRate (((b0 :: rest).map AudioBuffer.numberOfChannels).foldl max 0)
            (b0 :: rest).length gd (b0 :: rest)
            (List.replicate (((b0 :: rest).map AudioBuffer.numberOfChannels).foldl max 0)
              (List.replicate (totalLengthLoop gd b0.sampleRate (b0 :: rest)) (0 : ℚ))) 0 0).2 := by
  rw [combineBuffers_cons] at h
  simp only [Except.ok.injEq, Prod.mk.injEq] at h
  obtain ⟨h1, h2⟩ := h
  subst h1 h2
  refine ⟨rfl, rfl, ?_, rfl, rfl⟩
  show (combineLoop _ _ _ _ _ _ _ _).1.length = _
  rw [combineLoop_fst_length, List.length_replicate]

theorem sum_durations (R : ℕ) (bufs : List AudioBuffer) (h : ∀ b ∈ bufs, b.sampleRate = R) :
    (bufs.map AudioBuffer.duration).sum
      = (((bufs.map AudioBuffer.length).sum : ℕ) : ℚ) / (R : ℚ) := by
  induction bufs with
  | nil => simp
  | cons b rest ih =>
      have hb := h b (List.mem_cons_self _ _)
      rw [List.map_cons, List.sum_cons, List.map_cons, List.sum_cons,
        ih (fun b2 hb2 => h b2 (List.mem_cons_of_mem _ hb2)), AudioBuffer.duration, hb]
      push_cast
      rw [div_add_div_same]

theorem combineLoop_snd (tR tC n : ℕ) (gd : ℚ) :
    ∀ (bufs : List AudioBuffer) (out : List (List ℚ)) (off k : ℕ),
      (combineLoop tR tC n gd bufs out off k).2
        = (List.range bufs.length).map
            (fun t => 50 + (((k + t + 1 : ℕ) : ℚ) / (n : ℚ)) * 40) := by
  intro bufs
  induction bufs with
  | nil => intros; rfl
  | cons b rest ih =>
      intro out off k
      rw [combineLoop_cons]
      show _ :: _ = _
      rw [ih, List.length_cons, List.range_succ_eq_map, List.map_cons, List.map_map]
      have hfun : ((fun t => 50 + (((k + t + 1 : ℕ) : ℚ) / (n : ℚ)) * 40) ∘ Nat.succ)
          = fun t => 50 + (((k + 1 + t + 1 : ℕ) : ℚ) / (n : ℚ)) * 40 := by
        funext t
        show 50 + (((k + (t + 1) + 1 : ℕ) : ℚ) / (n : ℚ)) * 40
            = 50 + (((k + 1 + t + 1 : ℕ) : ℚ) / (n : ℚ)) * 40
        push_cast
        ring
      rw [hfun]

theorem convertFilesLoop_snd {σ : Type} (lamejs : Option (LamejsLib σ))
    (resampleBuffer : AudioBuffer → ℕ → AudioBuffer) (targetFormat : String)
    (bitrate sampleRate total : ℕ) :
    ∀ (files : List RawFile) (i : ℕ),
      (convertFilesLoop lamejs resampleBuffer targetFormat bitrate sampleRate total files i).2
        = (List.range files.length).map
            (fun t => (((i + t + 1 : ℕ) : ℚ) / (total : ℚ)) * 100) := by
  intro files
  induction files with
  | nil => intros; rfl
  | cons f rest ih =>
      intro i
      show _ :: _ = _
      rw [ih, List.length_cons, List.range_succ_eq_map, List.map_cons, List.map_map]
      have hfun : ((fun t => (((i + t + 1 : ℕ) : ℚ) / (total : ℚ)) * 100) ∘ Nat.succ)
          = fun t => (((i + 1 + t + 1 : ℕ) : ℚ) / (total : ℚ)) * 100 := by
        funext t
        show (((i + (t + 1) + 1 : ℕ) : ℚ) / (total : ℚ)) * 100
            = (((i + 1 + t + 1 : ℕ) : ℚ) / (total : ℚ)) * 100
        push_cast
        ring
      rw [hfun]

theorem convertFilesLoop_fst {σ : Type} (lamejs : Option (LamejsLib σ))
    (resampleBuffer : AudioBuffer → ℕ → AudioBuffer) (targetFormat : String)
    (bitrate sampleRate total : ℕ) :
    ∀ (files : List RawFile) (i : ℕ),
      (convertFilesLoop lamejs resampleBuffer targetFormat bitrate sampleRate total files i).1
        = files.map (conversionEntry lamejs resampleBuffer targetFormat bitrate sampleRate) := by
  intro files
  induction files with
  | nil => intros; rfl
  | cons f rest ih =>
      intro i
      show _ :: _ = _ :: _
      rw [ih]

theorem sorted_map_range_of_mono (f : ℕ → ℚ) (m : ℕ) (hf : ∀ a b, a < b → f a ≤ f b) :
    ((List.range m).map f).Sorted (· ≤ ·) :=
  List.Pairwise.map f hf (List.pairwise_lt_range m)

theorem div_scale_bounds (a m : ℕ) (c : ℚ) (ha : 0 < a) (ham : a ≤ m) (hc : 0 < c) :
    0 < ((a : ℕ) : ℚ) / (m : ℚ) * c ∧ ((a : ℕ) : ℚ) / (m : ℚ) * c ≤ c := by
  have hm : (0 : ℚ) < (m : ℚ) := by exact_mod_cast lt_of_lt_of_le ha ham
  constructor
  · exact mul_pos (div_pos (by exact_mod_cast ha) hm) hc
  · have h1 : ((a : ℕ) : ℚ) / (m : ℚ) ≤ 1 := by
      rw [div_le_one hm]
      exact_mod_cast ham
    calc ((a : ℕ) : ℚ) / (m : ℚ) * c ≤ 1 * c := mul_le_mul_of_nonneg_right h1 (le_of_lt hc)
    _ = c := one_mul c

theorem loadLoop_progress (total : ℕ) :
    ∀ (files : List RawFile) (i : ℕ), i + files.length ≤ total →
      (∀ p ∈ (loadAudioFilesLoop total files i).2,
          ((i + 1 : ℕ) : ℚ) / (total : ℚ) * 50 ≤ p ∧ p ≤ 50)
        ∧ (loadAudioFilesLoop total files i).2.Sorted (· ≤ ·) := by
  intro files
  induction files with
  | nil =>
      intro i hi
      refine ⟨fun p hp => absurd hp (by simp [loadAudioFilesLoop]), ?_⟩
      simp [loadAudioFilesLoop]
  | cons f rest ih =>
      intro i hi
      rcases hd : f.decodeResult with e | buffer
      · refine ⟨fun p hp => absurd hp (by simp [loadAudioFilesLoop, hd]), ?_⟩
        simp [loadAudioFilesLoop, hd]
      · have hi2 : (i + 1) + rest.length ≤ total := by
          simp only [List.length_cons] at hi
          omega
        obtain ⟨hb, hs⟩ := ih (i + 1) hi2
        have htpos : (0 : ℚ) < (total : ℚ) := by
          exact_mod_cast (by omega : 0 < total)
        have hmono : ((i + 1 : ℕ) : ℚ) / (total : ℚ) * 50
            ≤ ((i + 1 + 1 : ℕ) : ℚ) / (total : ℚ) * 50 :=
          mul_le_mul_of_nonneg_right
            ((div_le_div_iff_of_pos_right htpos).mpr (by exact_mod_cast (by omega : i + 1 ≤ i + 1 + 1)))
            (by norm_num)
        have hhd : (loadAudioFilesLoop total (f :: rest) i).2
            = (((i + 1 : ℕ) : ℚ) / (total : ℚ) * 50) :: (loadAudioFilesLoop total rest (i + 1)).2 := by
          simp [loadAudioFilesLoop, hd]
        rw [hhd]
        constructor
        · intro p hp
          rcases List.mem_cons.mp hp with rfl | hp2
          · exact ⟨le_refl _,
              (div_scale_bounds (i + 1) total 50 (by omega) (by omega) (by norm_num)).2⟩
          · exact ⟨le_trans hmono (hb p hp2).1, (hb p hp2).2⟩
        · rw [List.sorted_cons]
          exact ⟨fun p hp => le_trans hmono (hb p hp).1, hs⟩

theorem clampSample_bounds (s : ℚ) : -1 ≤ clampSample s ∧ clampSample s ≤ 1 := by
  unfold clampSample
  refine ⟨le_max_left _ _, max_le (by norm_num) (min_le_left _ _)⟩

theorem jsTrunc_scale_bounds (s : ℚ) :
    -32768 ≤ jsTrunc (scaleSample (clampSample s))
      ∧ jsTrunc (scaleSample (clampSample s)) ≤ 32767 := by
  obtain ⟨hc1, hc2⟩ := clampSample_bounds s
  set c := clampSample s with hc
  unfold scaleSample jsTrunc
  by_cases hneg : c < 0
  · rw [if_pos hneg]
    have hq1 : (-32768 : ℚ) ≤ c * 32768 := by nlinarith
    have hq2 : c * 32768 < 0 := by nlinarith
    rw [if_pos hq2]
    have hup : ⌊-(c * 32768)⌋ ≤ 32768 := by
      calc ⌊-(c * 32768)⌋ ≤ ⌊(32768 : ℚ)⌋ := Int.floor_le_floor (by linarith)
      _ = 32768 := by norm_num
    have hlo : 0 ≤ ⌊-(c * 32768)⌋ := Int.floor_nonneg.mpr (by linarith)
    omega
  · rw [if_neg hneg]
    push_neg at hneg
    have hq1 : (0 : ℚ) ≤ c * 32767 := by nlinarith
    have hq2 : c * 32767 ≤ 32767 := by nlinarith
    rw [if_neg (by linarith : ¬ c * 32767 < 0)]
    have hlo : (0 : ℤ) ≤ ⌊c * 32767⌋ := Int.floor_nonneg.mpr hq1
    have hup : ⌊c * 32767⌋ ≤ 32767 := by
      calc ⌊c * 32767⌋ ≤ ⌊(32767 : ℚ)⌋ := Int.floor_le_floor hq2
      _ = 32767 := by norm_num
    omega

theorem quantizeSample_eq_jsTrunc (s : ℚ) :
    quantizeSample s = jsTrunc (scaleSample (clampSample s))
      ∧ -32768 ≤ quantizeSample s ∧ quantizeSample s ≤ 32767 := by
  obtain ⟨h1, h2⟩ := jsTrunc_scale_bounds s
  unfold quantizeSample
  simp only [toInt16]
  refine ⟨?_, ?_, ?_⟩ <;> (split <;> omega)

theorem countP_unique_false {α : Type} (p : α → Bool) :
    ∀ (l : List α) (i0 : ℕ) (hi0 : i0 < l.length), p (l.get ⟨i0, hi0⟩) = false →
      (∀ (j : ℕ) (hj : j < l.length), j ≠ i0 → p (l.get ⟨j, hj⟩) = true) →
      l.countP p = l.length - 1 ∧ l.countP (fun a => !(p a)) = 1 := by
  intro l
  induction l with
  | nil => intro i0 hi0; exact absurd hi0 (by simp)
  | cons a tl ih =>
      intro i0 hi0 hfalse hrest
      cases i0 with
      | zero =>
          have hpa : p a = false := hfalse
          have hall : ∀ x ∈ tl, p x = true := by
            intro x hx
            obtain ⟨⟨j, hj⟩, rfl⟩ := List.mem_iff_get.mp hx
            exact hrest (j + 1) (by simpa using Nat.succ_lt_succ hj) (by omega)
          constructor
          · rw [List.countP_cons, hpa, List.countP_eq_length.mpr hall]
            simp
          · rw [List.countP_cons,
              List.countP_eq_zero.mpr (fun x hx => by simp [hall x hx]), hpa]
            simp
      | succ j0 =>
          have hj0 : j0 < tl.length := by simpa using Nat.lt_of_succ_lt_succ hi0
          have htrue : p a = true := hrest 0 (by simp) (by omega)
          have hfalse2 : p (tl.get ⟨j0, hj0⟩) = false := hfalse
          have hrest2 : ∀ (j : ℕ) (hj : j < tl.length), j ≠ j0 → p (tl.get ⟨j, hj⟩) = true := by
            intro j hj hne
            exact hrest (j + 1) (by simpa using Nat.succ_lt_succ hj) (by omega)
          obtain ⟨hc1, hc2⟩ := ih j0 hj0 hfalse2 hrest2
          constructor
          · rw [List.countP_cons, htrue, hc1]
            have hpos : 0 < tl.length := Nat.lt_of_le_of_lt (Nat.zero_le j0) hj0
            simp only [List.length_cons, if_true]
            omega
          · rw [List.countP_cons, hc2, htrue]
            simp

theorem sampleBytes_length (s : ℚ) : (sampleBytes s).length = 2 := rfl

theorem sum_map_constant (m c : ℕ) (f : ℕ → ℕ) (hf : ∀ i ∈ List.range m, f i = c) :
    ((List.range m).map f).sum = m * c := by
  rw [List.map_congr_left hf, List.map_const']
  simp [List.sum_replicate, smul_eq_mul]

theorem wavDataBytes_length (b : AudioBuffer) :
    (wavDataBytes b).length = b.length * (b.numberOfChannels * 2) := by
  unfold wavDataBytes
  rw [List.length_flatten, List.map_map]
  refine sum_map_constant b.length (b.numberOfChannels * 2) _ fun i hi => ?_
  show (((List.range b.numberOfChannels).map fun channel =>
      sampleBytes ((b.getChannelData channel).getD i 0)).flatten).length = b.numberOfChannels * 2
  rw [List.length_flatten, List.map_map]
  exact sum_map_constant b.numberOfChannels 2 _ fun ch hch => sampleBytes_length _

/-- C5: calling merge (combineBuffers) with an empty track list fails with the
empty-input error immediately — the result is the error, the loop never runs,
and no combined track is produced. -/
theorem combineBuffers_empty_error :
    ∀ gapDuration : ℚ,
      combineBuffers [] gapDuration = .error "병합할 오디오가 없습니다."
        ∧ (combineBuffers [] gapDuration).toOption = none :=
  fun _ => ⟨rfl, rfl⟩

/-- C2 counterexample: the claim says the encoder maps a non-negative sample to
round(sample * 32767), but DataView.setInt16 truncates toward zero: at sample
1/2 the code stores 16383 while round(1/2 * 32767) = round(16383.5) = 16384. -/
theorem quantizeSample_round_claim_false :
    quantizeSample (1/2) = 16383 ∧ quantizeSampleSpec (1/2) = 16384
      ∧ quantizeSample (1/2) ≠ quantizeSampleSpec (1/2) := by
  have h1 : quantizeSample (1/2) = 16383 := by
    norm_num [quantizeSample, clampSample, scaleSample, jsTrunc, toInt16]
  have h2 : quantizeSampleSpec (1/2) = 16384 := by
    norm_num [quantizeSampleSpec, clampSample, round_eq]
  exact ⟨h1, h2, by rw [h1, h2]; decide⟩

/-- C2 (amended): per-sample quantization clamps to [-1, 1], scales by 32768 for
negative samples and 32767 otherwise, and stores the value truncated toward zero
(not rounded); the result never overflows int16, and the boundary samples map to
-32768, 32767 and 0 exactly. -/
theorem quantizeSample_truncates :
    (∀ s : ℚ, quantizeSample s = jsTrunc (scaleSample (clampSample s))
        ∧ -32768 ≤ quantizeSample s ∧ quantizeSample s ≤ 32767)
      ∧ quantizeSample (-1) = -32768 ∧ quantizeSample 1 = 32767 ∧ quantizeSample 0 = 0 :=
  ⟨fun s => quantizeSample_eq_jsTrunc s,
   by norm_num [quantizeSample, clampSample, scaleSample, jsTrunc, toInt16],
   by norm_num [quantizeSample, clampSample, scaleSample, jsTrunc, toInt16],
   by norm_num [quantizeSample, clampSample, scaleSample, jsTrunc, toInt16]⟩

/-- C10: exportAudio throws when no merge has produced a combined buffer, and
getCombinedAudioUrl throws when no export has produced a combined blob — neither
fabricates an artifact or URL from absent state. -/
theorem export_requires_merged_state :
    (∀ (σ : Type) (lamejs : Option (LamejsLib σ)) (st : ProcState) (format : String)
        (bitrate : ℕ), st.combinedBuffer = none →
      exportAudio lamejs st format bitrate = .error "병합된 오디오가 없습니다.")
      ∧ (∀ (mkUrl : Blob → String) (st : ProcState), st.combinedBlob = none →
          getCombinedAudioUrl mkUrl st = .error "병합된 오디오가 없습니다.") := by
  constructor
  · intro σ lamejs st format bitrate h
    unfold exportAudio
    rw [h]
  · intro mkUrl st h
    unfold getCombinedAudioUrl
    rw [h]

/-- C10 witness: the freshly constructed processor state rejects export and URL
creation. -/
theorem export_requires_merged_state_witness :
    (emptyState.combinedBuffer = none
      ∧ exportAudio (none : Option (LamejsLib Unit)) emptyState "mp3" 192
          = .error "병합된 오디오가 없습니다.")
    ∧ (emptyState.combinedBlob = none
      ∧ getCombinedAudioUrl (fun _ => "") emptyState = .error "병합된 오디오가 없습니다.") :=
  ⟨⟨rfl, export_requires_merged_state.1 Unit none emptyState "mp3" 192 rfl⟩,
   ⟨rfl, export_requires_merged_state.2 (fun _ => "") emptyState rfl⟩⟩

/-- C8: with no lamejs capability, wavToMp3 returns the WAV blob unchanged
together with the degradation warning (an ok result, not an error); and when the
MP3 conversion throws during export, exportAudio catches it and returns the WAV
blob instead of failing. -/
theorem wavToMp3_fallback :
    (∀ (σ : Type) (wavBlob : Blob) (bitrate : ℕ),
        wavToMp3 (none : Option (LamejsLib σ)) wavBlob bitrate
          = .ok (wavBlob, some "lamejs not loaded, returning WAV instead"))
      ∧ (∀ (σ : Type) (lamejs : Option (LamejsLib σ)) (st : ProcState) (buffer : AudioBuffer)
          (format : String) (bitrate : ℕ) (e : String),
          st.combinedBuffer = some buffer → format ≠ "wav" →
          wavToMp3 lamejs (audioBufferToWav buffer) bitrate = .error e →
          exportAudio lamejs st format bitrate
            = .ok ({ st with combinedBlob := some (audioBufferToWav buffer) },
                audioBufferToWav buffer, [90, 100])) := by
  constructor
  · intro σ wavBlob bitrate
    rfl
  · intro σ lamejs st buffer format bitrate e hbuf hfmt henc
    simp only [ exportAudio, hbuf, if_neg hfmt, henc]

/-- C8 witness: a present but throwing encoder capability makes wavToMp3 fail,
and exportAudio falls back to the WAV blob. -/
theorem wavToMp3_fallback_witness :
    (wavToMp3 (none : Option (LamejsLib Unit)) (audioBufferToWav tinyBuffer) 192
        = .ok (audioBufferToWav tinyBuffer, some "lamejs not loaded, returning WAV instead"))
    ∧ (mergedState.combinedBuffer = some tinyBuffer
      ∧ wavToMp3 (some failingLamejs) (audioBufferToWav tinyBuffer) 192 = .error "encode failed"
      ∧ exportAudio (some failingLamejs) mergedState "mp3" 192
          = .ok ({ mergedState with combinedBlob := some (audioBufferToWav tinyBuffer) },
              audioBufferToWav tinyBuffer, [90, 100])) :=
  ⟨wavToMp3_fallback.1 Unit (audioBufferToWav tinyBuffer) 192,
   by
    have henc : wavToMp3 (some failingLamejs) (audioBufferToWav tinyBuffer) 192
        = .error "encode failed" := by decide
    exact ⟨rfl, henc,
      wavToMp3_fallback.2 Unit (some failingLamejs) mergedState tinyBuffer "mp3" 192
        "encode failed" rfl (by decide) henc⟩⟩


/-- C1 counterexample: the claim states merged duration = sum of track durations
plus gapSeconds times (n-1) for every gap value, but the code inserts
floor(gapSeconds * rate) whole frames: two 1-second tracks at 2 Hz merged with a
0.75-second gap produce 5 frames (duration 2.5 s), not 2.75 s. -/
theorem combineBuffers_duration_claim_false :
    ((combineBuffers [gapDemoBuffer, gapDemoBuffer] (3/4)).toOption.map fun p => p.1.duration)
        = some (5/2)
      ∧ gapDemoBuffer.duration + gapDemoBuffer.duration + 3/4 * (([gapDemoBuffer,
          gapDemoBuffer].length - 1 : ℕ) : ℚ) = 11/4
      ∧ (5/2 : ℚ) ≠ 11/4 := by
  refine ⟨?_, by norm_num [gapDemoBuffer, AudioBuffer.duration], by norm_num⟩
  rw [combineBuffers_cons]
  simp only [Except.toOption, Option.map_some']
  have hlen : totalLengthLoop (3/4) gapDemoBuffer.sampleRate [gapDemoBuffer, gapDemoBuffer]
      = 5 := by
    norm_num [totalLengthLoop, interGap, gapDemoBuffer]
  show some (((totalLengthLoop (3/4) gapDemoBuffer.sampleRate [gapDemoBuffer, gapDemoBuffer]
      : ℕ) : ℚ) / ((gapDemoBuffer.sampleRate : ℕ) : ℚ)) = some (5/2)
  rw [hlen]
  norm_num [gapDemoBuffer]

/-- C1 (amended): for every non-empty track list whose tracks all share sample
rate R, the combined frame count is the sum of the individual frame counts plus
(n-1) gaps of floor(gapSeconds*R) frames each (no gap when gapSeconds ≤ 0), gaps
only between consecutive tracks; hence the merged duration is the sum of the
individual durations plus (n-1) * floor(gapSeconds*R)/R.  In particular merging
two 1-second mono 44100 Hz tracks with a 1-second gap yields 1 channel, 132300
frames, and duration 3.0 s. -/
theorem combineBuffers_duration_formula :
    (∀ (b0 : AudioBuffer) (rest : List AudioBuffer) (gapDuration : ℚ) (R : ℕ),
      (∀ b ∈ b0 :: rest, b.sampleRate = R) →
      ((combineBuffers (b0 :: rest) gapDuration).toOption.map fun p => p.1.length)
          = some (((b0 :: rest).map AudioBuffer.length).sum
              + ((b0 :: rest).length - 1)
                * (if 0 < gapDuration then Int.toNat ⌊gapDuration * (R : ℚ)⌋ else 0))
        ∧ ((combineBuffers (b0 :: rest) gapDuration).toOption.map fun p => p.1.duration)
            = some (((b0 :: rest).map AudioBuffer.duration).sum
                + (((b0 :: rest).length - 1 : ℕ) : ℚ)
                  * (((if 0 < gapDuration then Int.toNat ⌊gapDuration * (R : ℚ)⌋ else 0 : ℕ) : ℚ)
                    / (R : ℚ))))
    ∧ ((combineBuffers [track1s, track1s] 1).toOption.map
        fun p => (p.1.numberOfChannels, p.1.length, p.1.duration)) = some (1, 132300, 3) := by
  constructor
  · intro b0 rest gapDuration R hR
    have hR0 : b0.sampleRate = R := hR b0 (List.mem_cons_self _ _)
    rw [combineBuffers_cons]
    simp only [Except.toOption, Option.map_some']
    constructor
    · show some (totalLengthLoop gapDuration b0.sampleRate (b0 :: rest)) = _
      rw [totalLengthLoop_eq, hR0]
    · show some (((totalLengthLoop gapDuration b0.sampleRate (b0 :: rest) : ℕ) : ℚ)
          / ((b0.sampleRate : ℕ) : ℚ)) = _
      rw [totalLengthLoop_eq, hR0, sum_durations R (b0 :: rest) hR]
      congr 1
      push_cast
      ring
  · rw [combineBuffers_cons]
    simp only [Except.toOption, Option.map_some']
    have hlen : totalLengthLoop 1 track1s.sampleRate [track1s, track1s] = 132300 := by
      norm_num [totalLengthLoop, interGap, track1s]
      decide
    simp only [Option.some.injEq, Prod.mk.injEq]
    refine ⟨?_, hlen, ?_⟩
    · show (combineLoop track1s.sampleRate
          (([track1s, track1s].map AudioBuffer.numberOfChannels).foldl max 0)
          ([track1s, track1s]).length 1 [track1s, track1s]
          (List.replicate (([track1s, track1s].map AudioBuffer.numberOfChannels).foldl max 0)
            (List.replicate (totalLengthLoop 1 track1s.sampleRate [track1s, track1s]) (0 : ℚ)))
          0 0).1.length = 1
      rw [combineLoop_fst_length, List.length_replicate]
      rfl
    · show ((totalLengthLoop 1 track1s.sampleRate [track1s, track1s] : ℕ) : ℚ)
          / ((track1s.sampleRate : ℕ) : ℚ) = 3
      rw [hlen]
      norm_num [track1s]

/-- C1 witness: the amended formula applied to two one-second tracks at 2 Hz
with a one-second gap. -/
theorem combineBuffers_duration_formula_witness :
    (∀ b ∈ gapDemoBuffer :: [gapDemoBuffer], b.sampleRate = 2)
    ∧ (((combineBuffers (gapDemoBuffer :: [gapDemoBuffer]) 1).toOption.map fun p => p.1.length)
          = some (((gapDemoBuffer :: [gapDemoBuffer]).map AudioBuffer.length).sum
              + ((gapDemoBuffer :: [gapDemoBuffer]).length - 1)
                * (if 0 < (1 : ℚ) then Int.toNat ⌊(1 : ℚ) * ((2 : ℕ) : ℚ)⌋ else 0))
        ∧ ((combineBuffers (gapDemoBuffer :: [gapDemoBuffer]) 1).toOption.map fun p => p.1.duration)
            = some (((gapDemoBuffer :: [gapDemoBuffer]).map AudioBuffer.duration).sum
                + (((gapDemoBuffer :: [gapDemoBuffer]).length - 1 : ℕ) : ℚ)
                  * (((if 0 < (1 : ℚ) then Int.toNat ⌊(1 : ℚ) * ((2 : ℕ) : ℚ)⌋ else 0 : ℕ) : ℚ)
                    / ((2 : ℕ) : ℚ)))) :=
  ⟨by decide,
   combineBuffers_duration_formula.1 gapDemoBuffer [gapDemoBuffer] 1 2 (by decide)⟩



theorem getD_replicate_lt (n : ℕ) (a : List ℚ) (c : ℕ) (hc : c < n) :
    (List.replicate n a).getD c [] = a := by
  rw [List.getD_eq_getElem _ _ (by simpa using hc)]
  exact List.getElem_replicate a (by simpa using hc)

theorem combineBuffers_region (b0 : AudioBuffer) (rest : List AudioBuffer) (gd : ℚ)
    (combined : AudioBuffer) (prog : List ℚ) (R : ℕ)
    (h : combineBuffers (b0 :: rest) gd = .ok (combined, prog))
    (hbufs : ∀ b ∈ b0 :: rest, b.sampleRate = R ∧ b.WF ∧ 0 < b.numberOfChannels) :
    ∀ (j : ℕ) (hj : j < (b0 :: rest).length) (c : ℕ), c < combined.numberOfChannels →
      ∀ i, i < ((b0 :: rest).get ⟨j, hj⟩).length →
        (combined.getChannelData c).getD (startOffset gd R (b0 :: rest) j + i) 0
          = (((b0 :: rest).get ⟨j, hj⟩).getChannelData
              (sourceChannelIndex ((b0 :: rest).get ⟨j, hj⟩) c)).getD i 0 := by
  intro j hj c hc i hi
  obtain ⟨hRate, hTL, hNC, hCH, hPR⟩ := combineBuffers_ok b0 rest gd combined prog h
  have hR0 : b0.sampleRate = R := (hbufs b0 (List.mem_cons_self _ _)).1
  have hc2 : c < ((b0 :: rest).map AudioBuffer.numberOfChannels).foldl max 0 := hNC ▸ hc
  have hreg := combineLoop_region b0.sampleRate
    (((b0 :: rest).map AudioBuffer.numberOfChannels).foldl max 0) (b0 :: rest).length gd
    (b0 :: rest)
    (List.replicate (((b0 :: rest).map AudioBuffer.numberOfChannels).foldl max 0)
      (List.replicate (totalLengthLoop gd b0.sampleRate (b0 :: rest)) (0 : ℚ))) 0 0
    (totalLengthLoop gd b0.sampleRate (b0 :: rest))
    (fun c2 hc2 => by
      rw [getD_replicate_lt _ _ _ (by simpa using hc2), List.length_replicate])
    (by omega)
    (fun b hb => by
      obtain ⟨h1, h2, h3⟩ := hbufs b hb
      exact ⟨h1.trans hR0.symm, h2, h3⟩)
    j hj c hc2 (by simpa using hc2) i hi
  rw [AudioBuffer.getChannelData, hCH, hR0.symm]
  simpa using hreg


/-- C6: the combined track's channel count is the maximum channel count among
the inputs (Math.max over the inputs' numberOfChannels), and — for same-rate
inputs, where the copy path runs — each output channel c of each track's region
holds the samples of that track's channel c when c is below its channel count,
and of its first channel (index 0) otherwise: upmixing duplicates the first
channel. -/
theorem combineBuffers_channels_upmix :
    (∀ (buffers : List AudioBuffer) (gd : ℚ) (combined : AudioBuffer) (prog : List ℚ),
        combineBuffers buffers gd = .ok (combined, prog) →
        combined.numberOfChannels = (buffers.map AudioBuffer.numberOfChannels).foldl max 0)
    ∧ (∀ (buffers : List AudioBuffer) (gd : ℚ) (combined : AudioBuffer) (prog : List ℚ)
        (R : ℕ),
        combineBuffers buffers gd = .ok (combined, prog) →
        (∀ b ∈ buffers, b.sampleRate = R ∧ b.WF ∧ 0 < b.numberOfChannels) →
        ∀ (j : ℕ) (hj : j < buffers.length) (c : ℕ), c < combined.numberOfChannels →
          ∀ i, i < (buffers.get ⟨j, hj⟩).length →
            (combined.getChannelData c).getD (startOffset gd R buffers j + i) 0
              = ((buffers.get ⟨j, hj⟩).getChannelData
                  (if c < (buffers.get ⟨j, hj⟩).numberOfChannels then c else 0)).getD i 0) := by
  constructor
  · intro buffers gd combined prog h
    cases buffers with
    | nil => simp [combineBuffers] at h
    | cons b0 rest => exact (combineBuffers_ok b0 rest gd combined prog h).2.2.1
  · intro buffers gd combined prog R h hbufs j hj c hc i hi
    cases buffers with
    | nil => exact absurd hj (by simp)
    | cons b0 rest =>
        exact combineBuffers_region b0 rest gd combined prog R h hbufs j hj c hc i hi

/-- C6 witness: merging the mono and stereo demo buffers (both at 2 Hz) with no
gap; output channel 1 of the mono track's region is fed from its channel 0. -/
theorem combineBuffers_channels_upmix_witness :
    (combineBuffers [demoBufferA, demoBufferB] 0 = .ok (mergeDemoBuffer, mergeDemoProgress))
    ∧ mergeDemoBuffer.numberOfChannels
        = ([demoBufferA, demoBufferB].map AudioBuffer.numberOfChannels).foldl max 0
    ∧ (∀ b ∈ [demoBufferA, demoBufferB], b.sampleRate = 2 ∧ b.WF ∧ 0 < b.numberOfChannels)
    ∧ (mergeDemoBuffer.getChannelData 1).getD
          (startOffset 0 2 [demoBufferA, demoBufferB] 0 + 0) 0
        = (([demoBufferA, demoBufferB].get ⟨0, by norm_num⟩).getChannelData
            (if 1 < ([demoBufferA, demoBufferB].get ⟨0, by norm_num⟩).numberOfChannels
              then 1 else 0)).getD 0 0 :=
  ⟨rfl,
   combineBuffers_channels_upmix.1 [demoBufferA, demoBufferB] 0 mergeDemoBuffer
     mergeDemoProgress rfl,
   by decide,
   combineBuffers_channels_upmix.2 [demoBufferA, demoBufferB] 0 mergeDemoBuffer
     mergeDemoProgress 2 rfl (by decide) 0 (by norm_num) 1 (by decide) 0 (by decide)⟩

/-- C7: resampling to the source's own rate is the identity.  On the merge path
a track whose rate equals the target rate has its channel data copied into its
region verbatim, sample for sample; on the convert path, when the decoded rate
equals the target rate the resampling step is skipped entirely — the result
does not depend on the resampler at all. -/
theorem resample_identity_paths :
    (∀ (buffers : List AudioBuffer) (gd : ℚ) (combined : AudioBuffer) (prog : List ℚ)
        (R : ℕ),
        combineBuffers buffers gd = .ok (combined, prog) →
        (∀ b ∈ buffers, b.sampleRate = R ∧ b.WF ∧ 0 < b.numberOfChannels) →
        ∀ (j : ℕ) (hj : j < buffers.length) (c : ℕ), c < combined.numberOfChannels →
          c < (buffers.get ⟨j, hj⟩).numberOfChannels →
          ∀ i, i < (buffers.get ⟨j, hj⟩).length →
            (combined.getChannelData c).getD (startOffset gd R buffers j + i) 0
              = ((buffers.get ⟨j, hj⟩).getChannelData c).getD i 0)
    ∧ (∀ (σ : Type) (lamejs : Option (LamejsLib σ))
        (resampleBuffer : AudioBuffer → ℕ → AudioBuffer) (file : RawFile)
        (targetFormat : String) (bitrate sampleRate : ℕ) (buffer : AudioBuffer),
        file.decodeResult = .ok buffer → buffer.sampleRate = sampleRate →
        convertFile lamejs resampleBuffer file targetFormat bitrate sampleRate
          = convertFile lamejs (fun b _ => b) file targetFormat bitrate sampleRate) := by
  constructor
  · intro buffers gd combined prog R h hbufs j hj c hc hcj i hi
    cases buffers with
    | nil => exact absurd hj (by simp)
    | cons b0 rest =>
        have := combineBuffers_region b0 rest gd combined prog R h hbufs j hj c hc i hi
        rwa [sourceChannelIndex, if_pos hcj] at this
  · intro σ lamejs resampleBuffer file targetFormat bitrate sampleRate buffer hdec hrate
    simp [convertFile, hdec, hrate]

/-- C7 witness: channel 0 of the mono demo track is copied verbatim into the
merged output, and a deliberately wrong resampler does not affect converting a
file whose decoded rate already equals the target rate. -/
theorem resample_identity_paths_witness :
    ((combineBuffers [demoBufferA, demoBufferB] 0 = .ok (mergeDemoBuffer, mergeDemoProgress))
      ∧ (mergeDemoBuffer.getChannelData 0).getD
            (startOffset 0 2 [demoBufferA, demoBufferB] 0 + 1) 0
          = (([demoBufferA, demoBufferB].get ⟨0, by norm_num⟩).getChannelData 0).getD 1 0)
    ∧ (goodFile.decodeResult = .ok tinyBuffer
      ∧ convertFile (none : Option (LamejsLib Unit)) (fun _ _ => demoBufferA) goodFile "wav"
            192 8000
          = convertFile (none : Option (LamejsLib Unit)) (fun b _ => b) goodFile "wav"
            192 8000) :=
  ⟨⟨rfl,
    resample_identity_paths.1 [demoBufferA, demoBufferB] 0 mergeDemoBuffer mergeDemoProgress 2
      rfl (by decide) 0 (by norm_num) 0 (by decide) (by decide) 1 (by decide)⟩,
   ⟨rfl,
    resample_identity_paths.2 Unit none (fun _ _ => demoBufferA) goodFile "wav" 192 8000
      tinyBuffer rfl (by decide)⟩⟩


theorem parseU16_drop (bytes : List ℕ) (off : ℕ) :
    parseU16 (bytes.drop off) 0 = parseU16 bytes off := by
  unfold parseU16
  rw [List.getD_eq_getElem?_getD, List.getElem?_drop, List.getD_eq_getElem?_getD,
    List.getElem?_drop, Nat.add_zero, ← List.getD_eq_getElem?_getD,
    ← List.getD_eq_getElem?_getD]

theorem parseU32_drop (bytes : List ℕ) (off : ℕ) :
    parseU32 (bytes.drop off) 0 = parseU32 bytes off := by
  unfold parseU32
  rw [List.getD_eq_getElem?_getD, List.getElem?_drop,
    List.getD_eq_getElem?_getD, List.getElem?_drop,
    List.getD_eq_getElem?_getD, List.getElem?_drop,
    List.getD_eq_getElem?_getD, List.getElem?_drop, Nat.add_zero,
    ← List.getD_eq_getElem?_getD, ← List.getD_eq_getElem?_getD,
    ← List.getD_eq_getElem?_getD, ← List.getD_eq_getElem?_getD]

theorem parseU16_u16LE (v : ℕ) (rest : List ℕ) :
    parseU16 (u16LE v ++ rest) 0 = v % 256 + 256 * (v / 256 % 256) := rfl

theorem parseU32_u32LE (v : ℕ) (rest : List ℕ) :
    parseU32 (u32LE v ++ rest) 0
      = v % 256 + 256 * (v / 256 % 256) + 65536 * (v / 65536 % 256)
        + 16777216 * (v / 16777216 % 256) := rfl

theorem u16_roundtrip (v : ℕ) (h : v < 65536) : v % 256 + 256 * (v / 256 % 256) = v := by
  omega

theorem u32_roundtrip (v : ℕ) (h : v < 4294967296) :
    v % 256 + 256 * (v / 256 % 256) + 65536 * (v / 65536 % 256)
      + 16777216 * (v / 16777216 % 256) = v := by
  omega

set_option maxHeartbeats 4000000 in
/-- C3: the WAV encoder emits exactly 44 + frameCount * channels * 2 bytes, the
44-byte header carries every field of the canonical layout at its little-endian
offset, and parsing the header back out of the encoded bytes recovers the
channel count, sample rate, byte rate, block align, and PCM data size. -/
theorem audioBufferToWav_header_roundtrip :
    ∀ b : AudioBuffer,
      2 * b.numberOfChannels < 65536 →
      b.sampleRate < 4294967296 →
      b.sampleRate * (b.numberOfChannels * 2) < 4294967296 →
      36 + b.length * (b.numberOfChannels * 2) < 4294967296 →
      (audioBufferToWav b).bytes.length = 44 + b.length * (b.numberOfChannels * 2)
      ∧ (audioBufferToWav b).bytes.take 4 = strBytes "RIFF"
      ∧ parseU32 (audioBufferToWav b).bytes 4 = 36 + b.length * (b.numberOfChannels * 2)
      ∧ ((audioBufferToWav b).bytes.drop 8).take 4 = strBytes "WAVE"
      ∧ ((audioBufferToWav b).bytes.drop 12).take 4 = strBytes "fmt "
      ∧ parseU32 (audioBufferToWav b).bytes 16 = 16
      ∧ parseU16 (audioBufferToWav b).bytes 20 = 1
      ∧ parseU16 (audioBufferToWav b).bytes 22 = b.numberOfChannels
      ∧ parseU32 (audioBufferToWav b).bytes 24 = b.sampleRate
      ∧ parseU32 (audioBufferToWav b).bytes 28 = b.sampleRate * (b.numberOfChannels * 2)
      ∧ parseU16 (audioBufferToWav b).bytes 32 = b.numberOfChannels * 2
      ∧ parseU16 (audioBufferToWav b).bytes 34 = 16
      ∧ ((audioBufferToWav b).bytes.drop 36).take 4 = strBytes "data"
      ∧ parseU32 (audioBufferToWav b).bytes 40 = b.length * (b.numberOfChannels * 2) := by
  intro b h1 h2 h3 h4
  have hlen : (audioBufferToWav b).bytes.length = 44 + b.length * (b.numberOfChannels * 2) := by
    show (wavHeaderBytes b.numberOfChannels b.sampleRate b.length ++ wavDataBytes b).length = _
    rw [List.length_append, wavDataBytes_length,
      show (wavHeaderBytes b.numberOfChannels b.sampleRate b.length).length = 44 from rfl]
  have f4 : parseU32 (audioBufferToWav b).bytes 4 = 36 + b.length * (b.numberOfChannels * 2) := by
    obtain ⟨r, hr⟩ : ∃ r, (audioBufferToWav b).bytes.drop 4
        = u32LE (36 + b.length * (b.numberOfChannels * 2)) ++ r := ⟨_, rfl⟩
    rw [← parseU32_drop, hr, parseU32_u32LE]
    exact u32_roundtrip _ (by omega)
  have f16 : parseU32 (audioBufferToWav b).bytes 16 = 16 := by
    obtain ⟨r, hr⟩ : ∃ r, (audioBufferToWav b).bytes.drop 16 = u32LE 16 ++ r := ⟨_, rfl⟩
    rw [← parseU32_drop, hr, parseU32_u32LE]
  have f20 : parseU16 (audioBufferToWav b).bytes 20 = 1 := by
    obtain ⟨r, hr⟩ : ∃ r, (audioBufferToWav b).bytes.drop 20 = u16LE 1 ++ r := ⟨_, rfl⟩
    rw [← parseU16_drop, hr, parseU16_u16LE]
  have f22 : parseU16 (audioBufferToWav b).bytes 22 = b.numberOfChannels := by
    obtain ⟨r, hr⟩ : ∃ r, (audioBufferToWav b).bytes.drop 22
        = u16LE b.numberOfChannels ++ r := ⟨_, rfl⟩
    rw [← parseU16_drop, hr, parseU16_u16LE]
    exact u16_roundtrip _ (by omega)
  have f24 : parseU32 (audioBufferToWav b).bytes 24 = b.sampleRate := by
    obtain ⟨r, hr⟩ : ∃ r, (audioBufferToWav b).bytes.drop 24
        = u32LE b.sampleRate ++ r := ⟨_, rfl⟩
    rw [← parseU32_drop, hr, parseU32_u32LE]
    exact u32_roundtrip _ h2
  have f28 : parseU32 (audioBufferToWav b).bytes 28
      = b.sampleRate * (b.numberOfChannels * 2) := by
    obtain ⟨r, hr⟩ : ∃ r, (audioBufferToWav b).bytes.drop 28
        = u32LE (b.sampleRate * (b.numberOfChannels * 2)) ++ r := ⟨_, rfl⟩
    rw [← parseU32_drop, hr, parseU32_u32LE]
    exact u32_roundtrip _ h3
  have f32 : parseU16 (audioBufferToWav b).bytes 32 = b.numberOfChannels * 2 := by
    obtain ⟨r, hr⟩ : ∃ r, (audioBufferToWav b).bytes.drop 32
        = u16LE (b.numberOfChannels * 2) ++ r := ⟨_, rfl⟩
    rw [← parseU16_drop, hr, parseU16_u16LE]
    exact u16_roundtrip _ (by omega)
  have f34 : parseU16 (audioBufferToWav b).bytes 34 = 16 := by
    obtain ⟨r, hr⟩ : ∃ r, (audioBufferToWav b).bytes.drop 34 = u16LE 16 ++ r := ⟨_, rfl⟩
    rw [← parseU16_drop, hr, parseU16_u16LE]
  have f40 : parseU32 (audioBufferToWav b).bytes 40
      = b.length * (b.numberOfChannels * 2) := by
    obtain ⟨r, hr⟩ : ∃ r, (audioBufferToWav b).bytes.drop 40
        = u32LE (b.length * (b.numberOfChannels * 2)) ++ r := ⟨_, rfl⟩
    rw [← parseU32_drop, hr, parseU32_u32LE]
    exact u32_roundtrip _ (by omega)
  exact ⟨hlen, rfl, f4, rfl, rfl, f16, f20, f22, f24, f28, f32, f34, rfl, f40⟩


theorem isSuccess_conversionEntry {σ : Type} (lamejs : Option (LamejsLib σ))
    (resampleBuffer : AudioBuffer → ℕ → AudioBuffer) (targetFormat : String)
    (bitrate sampleRate : ℕ) (file : RawFile) :
    (conversionEntry lamejs resampleBuffer targetFormat bitrate sampleRate file).isSuccess
      = (convertFile lamejs resampleBuffer file targetFormat bitrate sampleRate).isOk := by
  unfold conversionEntry
  cases convertFile lamejs resampleBuffer file targetFormat bitrate sampleRate <;> rfl

theorem originalName_conversionEntry {σ : Type} (lamejs : Option (LamejsLib σ))
    (resampleBuffer : AudioBuffer → ℕ → AudioBuffer) (targetFormat : String)
    (bitrate sampleRate : ℕ) (file : RawFile) :
    (conversionEntry lamejs resampleBuffer targetFormat bitrate sampleRate file).originalName
      = file.name := by
  unfold conversionEntry
  cases convertFile lamejs resampleBuffer file targetFormat bitrate sampleRate <;> rfl

/-- C4: batch conversion returns exactly one result per input file, in input
order: entry j is the success record for file j when its conversion succeeds
and a failure record carrying file j's name and the error message otherwise
(the batch continues past failures); when exactly one of the k files fails,
there are exactly k-1 success records and 1 failure record. -/
theorem convertFiles_batch_isolation :
    (∀ (σ : Type) (lamejs : Option (LamejsLib σ))
        (resampleBuffer : AudioBuffer → ℕ → AudioBuffer) (files : List RawFile)
        (targetFormat : String) (bitrate sampleRate : ℕ),
      (convertFiles lamejs resampleBuffer files targetFormat bitrate sampleRate).1.length
          = files.length
      ∧ ∀ (j : ℕ) (hj : j < files.length),
          (convertFiles lamejs resampleBuffer files targetFormat bitrate sampleRate).1[j]?
              = some (conversionEntry lamejs resampleBuffer targetFormat bitrate sampleRate
                  (files.get ⟨j, hj⟩))
          ∧ ((convertFiles lamejs resampleBuffer files targetFormat bitrate
                sampleRate).1[j]?.map ConversionResult.originalName)
              = some (files.get ⟨j, hj⟩).name)
    ∧ (∀ (σ : Type) (lamejs : Option (LamejsLib σ))
        (resampleBuffer : AudioBuffer → ℕ → AudioBuffer) (files : List RawFile)
        (targetFormat : String) (bitrate sampleRate : ℕ) (i0 : ℕ) (hi0 : i0 < files.length),
        (convertFile lamejs resampleBuffer (files.get ⟨i0, hi0⟩) targetFormat bitrate
            sampleRate).isOk = false →
        (∀ (j : ℕ) (hj : j < files.length), j ≠ i0 →
          (convertFile lamejs resampleBuffer (files.get ⟨j, hj⟩) targetFormat bitrate
              sampleRate).isOk = true) →
        (convertFiles lamejs resampleBuffer files targetFormat bitrate
            sampleRate).1.countP ConversionResult.isSuccess = files.length - 1
        ∧ (convertFiles lamejs resampleBuffer files targetFormat bitrate
            sampleRate).1.countP (fun r => !(ConversionResult.isSuccess r)) = 1) := by
  constructor
  · intro σ lamejs resampleBuffer files targetFormat bitrate sampleRate
    rw [convertFiles, convertFilesLoop_fst]
    refine ⟨List.length_map _ _, fun j hj => ?_⟩
    have hj2 : j < (files.map
        (conversionEntry lamejs resampleBuffer targetFormat bitrate sampleRate)).length := by
      simpa using hj
    rw [List.getElem?_eq_getElem hj2, List.getElem_map]
    refine ⟨by rw [List.get_eq_getElem], ?_⟩
    rw [Option.map_some']
    rw [originalName_conversionEntry, List.get_eq_getElem]
  · intro σ lamejs resampleBuffer files targetFormat bitrate sampleRate i0 hi0 hbad hgood
    rw [convertFiles, convertFilesLoop_fst, List.countP_map, List.countP_map]
    have h := countP_unique_false
      (fun f => (convertFile lamejs resampleBuffer f targetFormat bitrate sampleRate).isOk)
      files i0 hi0 hbad hgood
    constructor
    · refine Eq.trans (List.countP_congr fun f hf => ?_) h.1
      simp [isSuccess_conversionEntry]
    · refine Eq.trans (List.countP_congr fun f hf => ?_) h.2
      simp [isSuccess_conversionEntry]

/-- C4 witness: a three-file batch whose middle file is corrupt yields three
ordered results with two successes and one failure. -/
theorem convertFiles_batch_isolation_witness :
    ((convertFiles (none : Option (LamejsLib Unit)) (fun b _ => b)
          [goodFile, badFile, goodFile] "wav" 192 8000).1.length
        = [goodFile, badFile, goodFile].length
      ∧ ((convertFiles (none : Option (LamejsLib Unit)) (fun b _ => b)
            [goodFile, badFile, goodFile] "wav" 192 8000).1[1]?.map
              ConversionResult.originalName)
          = some ([goodFile, badFile, goodFile].get ⟨1, by norm_num⟩).name)
    ∧ ((convertFile (none : Option (LamejsLib Unit)) (fun b _ => b)
          ([goodFile, badFile, goodFile].get ⟨1, by norm_num⟩) "wav" 192 8000).isOk = false
      ∧ (convertFiles (none : Option (LamejsLib Unit)) (fun b _ => b)
            [goodFile, badFile, goodFile] "wav" 192 8000).1.countP
              ConversionResult.isSuccess = [goodFile, badFile, goodFile].length - 1
      ∧ (convertFiles (none : Option (LamejsLib Unit)) (fun b _ => b)
            [goodFile, badFile, goodFile] "wav" 192 8000).1.countP
              (fun r => !(ConversionResult.isSuccess r)) = 1) := by
  have hpart := convertFiles_batch_isolation.1 Unit none (fun b _ => b)
    [goodFile, badFile, goodFile] "wav" 192 8000
  have hcount := convertFiles_batch_isolation.2 Unit none (fun b _ => b)
    [goodFile, badFile, goodFile] "wav" 192 8000 1 (by norm_num) (by decide)
    (by decide)
  exact ⟨⟨hpart.1, (hpart.2 1 (by norm_num)).2⟩, ⟨by decide, hcount.1, hcount.2⟩⟩


/-- C9: every reported progress value lies in [0, 100] and each operation's
sequence is non-decreasing, with the fixed stage sub-ranges: loading reports
values in (0, 50], merging reports values in (50, 90], export reports exactly
90 then 100, and batch conversion reports ((i+1)/total)*100 after each file,
values in (0, 100]. -/
theorem progress_monotone_ranges :
    (∀ files : List RawFile,
        (∀ p ∈ (loadAudioFiles files).2, 0 < p ∧ p ≤ 50)
          ∧ (loadAudioFiles files).2.Sorted (· ≤ ·))
    ∧ (∀ (buffers : List AudioBuffer) (gd : ℚ) (combined : AudioBuffer) (prog : List ℚ),
        combineBuffers buffers gd = .ok (combined, prog) →
          (∀ p ∈ prog, 50 < p ∧ p ≤ 90) ∧ prog.Sorted (· ≤ ·))
    ∧ (∀ (σ : Type) (lamejs : Option (LamejsLib σ)) (st : ProcState) (format : String)
        (bitrate : ℕ) (st2 : ProcState) (blob : Blob) (prog : List ℚ),
        exportAudio lamejs st format bitrate = .ok (st2, blob, prog) → prog = [90, 100])
    ∧ (∀ (σ : Type) (lamejs : Option (LamejsLib σ))
        (resampleBuffer : AudioBuffer → ℕ → AudioBuffer) (files : List RawFile)
        (targetFormat : String) (bitrate sampleRate : ℕ),
        (convertFiles lamejs resampleBuffer files targetFormat bitrate sampleRate).2
            = (List.range files.length).map
                (fun t => (((t + 1 : ℕ) : ℚ) / (files.length : ℚ)) * 100)
          ∧ (∀ p ∈ (convertFiles lamejs resampleBuffer files targetFormat bitrate
                sampleRate).2, 0 < p ∧ p ≤ 100)
          ∧ (convertFiles lamejs resampleBuffer files targetFormat bitrate
              sampleRate).2.Sorted (· ≤ ·)) := by
  refine ⟨?_, ?_, ?_, ?_⟩
  · intro files
    cases files with
    | nil =>
        refine ⟨fun p hp => absurd hp (by simp [loadAudioFiles, loadAudioFilesLoop]), ?_⟩
        simp [loadAudioFiles, loadAudioFilesLoop]
    | cons f rest =>
        obtain ⟨hb, hs⟩ := loadLoop_progress (f :: rest).length (f :: rest) 0 (by simp)
        refine ⟨fun p hp => ?_, hs⟩
        refine ⟨lt_of_lt_of_le ?_ (hb p hp).1, (hb p hp).2⟩
        exact (div_scale_bounds (0 + 1) (f :: rest).length 50 (by omega) (by simp)
          (by norm_num)).1
  · intro buffers gd combined prog h
    cases buffers with
    | nil => simp [combineBuffers] at h
    | cons b0 rest =>
        have hprog := (combineBuffers_ok b0 rest gd combined prog h).2.2.2.2
        rw [combineLoop_snd] at hprog
        have hn : 0 < (b0 :: rest).length := by simp
        constructor
        · intro p hp
          rw [hprog] at hp
          obtain ⟨t, ht, rfl⟩ := List.mem_map.mp hp
          have ht2 : t < (b0 :: rest).length := List.mem_range.mp ht
          obtain ⟨hpos, hle⟩ := div_scale_bounds (0 + t + 1) (b0 :: rest).length 40
            (by omega) (by omega) (by norm_num)
          constructor
          · linarith
          · linarith
        · rw [hprog]
          apply sorted_map_range_of_mono
          intro a c hac
          have htpos : (0 : ℚ) < ((b0 :: rest).length : ℚ) := by exact_mod_cast hn
          have hdiv : ((0 + a + 1 : ℕ) : ℚ) / ((b0 :: rest).length : ℚ)
              ≤ ((0 + c + 1 : ℕ) : ℚ) / ((b0 :: rest).length : ℚ) :=
            (div_le_div_iff_of_pos_right htpos).mpr (by exact_mod_cast (by omega : 0 + a + 1 ≤ 0 + c + 1))
          have := mul_le_mul_of_nonneg_right hdiv (by norm_num : (0 : ℚ) ≤ 40)
          linarith
  · intro σ lamejs st format bitrate st2 blob prog h
    cases hb : st.combinedBuffer with
    | none =>
        simp only [ exportAudio, hb] at h
        exact absurd h (by simp)
    | some buffer =>
        simp only [ exportAudio, hb] at h
        by_cases hf : format = "wav"
        · rw [if_pos hf] at h
          simp only [Except.ok.injEq, Prod.mk.injEq] at h
          exact h.2.2.symm
        · rw [if_neg hf] at h
          cases hw : wavToMp3 lamejs (audioBufferToWav buffer) bitrate with
          | error e =>
              rw [hw] at h
              simp only [Except.ok.injEq, Prod.mk.injEq] at h
              exact h.2.2.symm
          | ok pr =>
              rw [hw] at h
              simp only [Except.ok.injEq, Prod.mk.injEq] at h
              exact h.2.2.symm
  · intro σ lamejs resampleBuffer files targetFormat bitrate sampleRate
    have hsnd : (convertFiles lamejs resampleBuffer files targetFormat bitrate sampleRate).2
        = (List.range files.length).map
            (fun t => (((t + 1 : ℕ) : ℚ) / (files.length : ℚ)) * 100) := by
      rw [convertFiles, convertFilesLoop_snd]
      refine List.map_congr_left fun t ht => ?_
      norm_num
    refine ⟨hsnd, fun p hp => ?_, ?_⟩
    · rw [hsnd] at hp
      obtain ⟨t, ht, rfl⟩ := List.mem_map.mp hp
      have ht2 : t < files.length := List.mem_range.mp ht
      exact div_scale_bounds (t + 1) files.length 100 (by omega) (by omega) (by norm_num)
    · rw [hsnd]
      apply sorted_map_range_of_mono
      intro a c hac
      rcases Nat.eq_zero_or_pos files.length with heq | hpos
      · rw [show ((files.length : ℕ) : ℚ) = 0 by rw [heq]; norm_num, div_zero, div_zero]
      · exact mul_le_mul_of_nonneg_right
          ((div_le_div_iff_of_pos_right (by exact_mod_cast hpos)).mpr
            (by exact_mod_cast (by omega : a + 1 ≤ c + 1)))
          (by norm_num)


/-- C9 witness: the merge stage of the demo merge reports values in (50, 90]
non-decreasingly, and a wav export reports exactly 90 then 100. -/
theorem progress_monotone_ranges_witness :
    (combineBuffers [demoBufferA, demoBufferB] 0 = .ok (mergeDemoBuffer, mergeDemoProgress)
      ∧ (∀ p ∈ mergeDemoProgress, 50 < p ∧ p ≤ 90) ∧ mergeDemoProgress.Sorted (· ≤ ·))
    ∧ ( exportAudio (none : Option (LamejsLib Unit)) mergedState "wav" 192
          = .ok ({ mergedState with combinedBlob := some (audioBufferToWav tinyBuffer) },
              audioBufferToWav tinyBuffer, [90, 100])
      ∧ ([90, 100] : List ℚ) = [90, 100]) :=
  ⟨⟨rfl, progress_monotone_ranges.2.1 [demoBufferA, demoBufferB] 0 mergeDemoBuffer
      mergeDemoProgress rfl⟩,
   ⟨rfl, progress_monotone_ranges.2.2.1 Unit none mergedState "wav" 192
      ({ mergedState with combinedBlob := some (audioBufferToWav tinyBuffer) })
      (audioBufferToWav tinyBuffer) [90, 100] rfl⟩⟩

/-- C3 witness: the header facts evaluated on a concrete two-frame mono 8000 Hz
track. -/
theorem audioBufferToWav_header_roundtrip_witness :
    (2 * wavDemoBuffer.numberOfChannels < 65536
      ∧ wavDemoBuffer.sampleRate < 4294967296
      ∧ wavDemoBuffer.sampleRate * (wavDemoBuffer.numberOfChannels * 2) < 4294967296
      ∧ 36 + wavDemoBuffer.length * (wavDemoBuffer.numberOfChannels * 2) < 4294967296)
    ∧ ((audioBufferToWav wavDemoBuffer).bytes.length
          = 44 + wavDemoBuffer.length * (wavDemoBuffer.numberOfChannels * 2)
      ∧ (audioBufferToWav wavDemoBuffer).bytes.take 4 = strBytes "RIFF"
      ∧ parseU32 (audioBufferToWav wavDemoBuffer).bytes 4
          = 36 + wavDemoBuffer.length * (wavDemoBuffer.numberOfChannels * 2)
      ∧ ((audioBufferToWav wavDemoBuffer).bytes.drop 8).take 4 = strBytes "WAVE"
      ∧ ((audioBufferToWav wavDemoBuffer).bytes.drop 12).take 4 = strBytes "fmt "
      ∧ parseU32 (audioBufferToWav wavDemoBuffer).bytes 16 = 16
      ∧ parseU16 (audioBufferToWav wavDemoBuffer).bytes 20 = 1
      ∧ parseU16 (audioBufferToWav wavDemoBuffer).bytes 22 = wavDemoBuffer.numberOfChannels
      ∧ parseU32 (audioBufferToWav wavDemoBuffer).bytes 24 = wavDemoBuffer.sampleRate
      ∧ parseU32 (audioBufferToWav wavDemoBuffer).bytes 28
          = wavDemoBuffer.sampleRate * (wavDemoBuffer.numberOfChannels * 2)
      ∧ parseU16 (audioBufferToWav wavDemoBuffer).bytes 32
          = wavDemoBuffer.numberOfChannels * 2
      ∧ parseU16 (audioBufferToWav wavDemoBuffer).bytes 34 = 16
      ∧ ((audioBufferToWav wavDemoBuffer).bytes.drop 36).take 4 = strBytes "data"
      ∧ parseU32 (audioBufferToWav wavDemoBuffer).bytes 40
          = wavDemoBuffer.length * (wavDemoBuffer.numberOfChannels * 2)) :=
  ⟨⟨by decide, by decide, by decide, by decide⟩,
   audioBufferToWav_header_roundtrip wavDemoBuffer (by decide) (by decide) (by decide)
     (by decide)⟩

end Mp3Combiner
